import Mathlib

/-!
# Verification of the visual-delta pipeline core

A shallow embedding, in Lean 4, of the privacy-preserving visual-delta
pipeline: fingerprint primitives, the VID continuity tracker, the delta
detector with debouncing, the visual-state reducer, and the verbalizer
with its output validation.

Modelling conventions:
* JavaScript numbers are modelled as `ℚ` (all arithmetic in the sources is
  exact except `Math.sqrt`; `Math.sqrt` is modelled by `Rat.sqrt`, which is
  exact on rationals whose numerator and denominator are perfect squares --
  every concrete input used below is of that shape).
* JavaScript strings are modelled as `String`; string algorithms
  (`split`, `includes`, `slice`, `replace`, `toLowerCase`) are defined
  below over the underlying character list `String.data`.
* `VID`, rendered in the source as the string `"v" + n` for a
  monotonically increasing counter `n`, is modelled by its number `n : ℕ`
  (the rendering is injective, and no inspected behaviour depends on the
  textual form; debounce keys `"{vid}:{field}"` are correspondingly
  modelled as `VID × SignalField` pairs, a faithful bijection because the
  digits of `n` never contain `':'`).
* JavaScript `Map`s and records are modelled as association lists in
  insertion order (which is the iteration order JavaScript guarantees).
* Event `id` and `ts_emit_ms` (a module-level counter and the wall clock,
  neither inspected by any claim) are omitted from the event model.
-/

set_option linter.unusedVariables false

/-! ## Numeric and string primitives -/

/-- Model of JavaScript `Math.sqrt` on the `ℚ` model of numbers: exact on
rationals with perfect-square numerator and denominator (the only shape on
which any theorem below evaluates it). -/
def mathSqrt (q : ℚ) : ℚ := Rat.sqrt q

/-- Model of JavaScript `Math.floor` (exact on `ℚ`). -/
def jsFloor (q : ℚ) : ℤ := ⌊q⌋

/-- Model of `String.prototype.split(sep)` on character lists. -/
def jsSplitChars (sep : Char) : List Char → List (List Char)
  | [] => [[]]
  | c :: rest =>
    match jsSplitChars sep rest with
    | [] => if c = sep then [[], [c]] else [[c]]
    | h :: t => if c = sep then [] :: h :: t else (c :: h) :: t

/-- Model of `String.prototype.split(sep)`. -/
def jsSplit (sep : Char) (s : String) : List String :=
  (jsSplitChars sep s.data).map String.mk

/-- Prefix test on character lists. -/
def isPrefixOfChars : List Char → List Char → Bool
  | [], _ => true
  | _ :: _, [] => false
  | p :: ps, c :: cs => p = c && isPrefixOfChars ps cs

/-- Model of `String.prototype.startsWith(pre)`. -/
def jsStartsWith (s pre : String) : Bool :=
  isPrefixOfChars pre.data s.data

/-- Contiguous-substring test on character lists. -/
def isInfixOfChars (needle : List Char) : List Char → Bool
  | [] => isPrefixOfChars needle []
  | c :: cs => isPrefixOfChars needle (c :: cs) || isInfixOfChars needle cs

/-- Model of `String.prototype.includes(needle)`. -/
def jsIncludes (s needle : String) : Bool :=
  isInfixOfChars needle.data s.data

/-- Model of `String.prototype.toLowerCase()` (ASCII; every string it is
applied to in the sources is ASCII). -/
def jsToLower (s : String) : String :=
  String.mk (s.data.map Char.toLower)

/-- Model of `String.prototype.slice(n)` (drop the first `n` characters). -/
def jsSliceFrom (n : ℕ) (s : String) : String :=
  String.mk (s.data.drop n)

/-- Model of `String.prototype.trim()` (ASCII whitespace). -/
def jsTrim (s : String) : String :=
  String.mk ((s.data.dropWhile Char.isWhitespace).reverse.dropWhile Char.isWhitespace |>.reverse)

/-- First-occurrence replacement on character lists, the semantics of
`String.prototype.replace(needle, repl)` with a string pattern. -/
def replaceFirstChars (needle repl : List Char) : List Char → List Char
  | [] => []
  | c :: cs =>
    if isPrefixOfChars needle (c :: cs) then
      repl ++ (c :: cs).drop needle.length
    else
      c :: replaceFirstChars needle repl cs

/-- Model of `String.prototype.replace(needle, repl)` (first occurrence;
`needle` is nonempty at every call site in the sources). -/
def jsReplace (s needle repl : String) : String :=
  String.mk (replaceFirstChars needle.data repl.data s.data)

/-- Value of a decimal digit character, the model of `parseInt(ch, 10)`.
On a non-digit character `parseInt` yields `NaN`, which has no `ℚ`
counterpart; the junk value returned here is never relied upon (every
theorem touching it restricts to digit characters). -/
def digitVal (c : Char) : ℚ := ((c.toNat : ℤ) - 48 : ℤ)

/-- Value of a hexadecimal digit character (model of one digit of
`parseInt(s, 16)`; junk on non-hex characters, see `digitVal`). -/
def hexVal (c : Char) : ℚ :=
  if 48 ≤ c.toNat ∧ c.toNat ≤ 57 then ((c.toNat : ℤ) - 48 : ℤ)
  else if 97 ≤ c.toNat ∧ c.toNat ≤ 102 then ((c.toNat : ℤ) - 87 : ℤ)
  else if 65 ≤ c.toNat ∧ c.toNat ≤ 70 then ((c.toNat : ℤ) - 55 : ℤ)
  else 0

/-- Model of `parseInt(s, 16)` on a two-character hex string. -/
def hexPair (c₁ c₂ : Char) : ℚ := 16 * hexVal c₁ + hexVal c₂

/-! ## Core data model (`events/visual.ts`, `visual/vid.ts`) -/

/-- `BBox` — normalized rectangle, fields in the `ℚ` model of numbers. -/
structure BBox where
  x : ℚ
  y : ℚ
  w : ℚ
  h : ℚ
deriving DecidableEq

/-- `RegionKind`. -/
inductive RegionKind
  | tile
  | screen_share
  | unknownKind
deriving DecidableEq

/-- `LayoutType`. -/
inductive LayoutType
  | grid
  | speaker
  | presentation
  | unknownLayout
deriving DecidableEq

/-- `VID`, modelled by the minted counter value (source renders `"v" + n`). -/
abbrev VID := ℕ

/-- `VisualSignals` — the optional per-region signals. -/
structure VisualSignals where
  handRaised : Option Bool := none
  cameraOn : Option Bool := none
  isActiveSpeaker : Option Bool := none
  isPresenting : Option Bool := none
  slideHash : Option String := none
deriving DecidableEq

/-- `DetectedRegion`. -/
structure DetectedRegion where
  bbox : BBox
  kind : RegionKind
  fingerprint : String
  signals : VisualSignals
deriving DecidableEq

/-! ## Fingerprint primitives (`visual/fingerprint.ts`) -/

/-- `generateFingerprint(bbox, colorHex?)`: position buckets from
`Math.floor(value * 10)` rendered by string interpolation, optional
`"|CLR:"` suffix (a falsy — empty — `colorHex` is skipped, as in the
source's `if (colorHex)`). -/
def generateFingerprint (bbox : BBox) (colorHex : Option String) : String :=
  let px := jsFloor (bbox.x * 10)
  let py := jsFloor (bbox.y * 10)
  let pw := jsFloor (bbox.w * 10)
  let ph := jsFloor (bbox.h * 10)
  let posStr := "POS:" ++ toString px ++ toString py ++ toString pw ++ toString ph
  match colorHex with
  | some c => if c = "" then posStr else posStr ++ "|CLR:" ++ c
  | none => posStr

/-- `hexColorSimilarity(a, b)` — normalized euclidean RGB distance. -/
def hexColorSimilarity (a b : String) : ℚ :=
  if a.length ≠ 6 ∨ b.length ≠ 6 then 1/2
  else
    let aR := hexPair (a.data.getD 0 ' ') (a.data.getD 1 ' ')
    let aG := hexPair (a.data.getD 2 ' ') (a.data.getD 3 ' ')
    let aB := hexPair (a.data.getD 4 ' ') (a.data.getD 5 ' ')
    let bR := hexPair (b.data.getD 0 ' ') (b.data.getD 1 ' ')
    let bG := hexPair (b.data.getD 2 ' ') (b.data.getD 3 ' ')
    let bB := hexPair (b.data.getD 4 ' ') (b.data.getD 5 ' ')
    let dist := mathSqrt ((aR - bR) ^ 2 + (aG - bG) ^ 2 + (aB - bB) ^ 2)
    let maxDist := mathSqrt (3 * 255 * 255)
    1 - dist / maxDist

/-- The position-digit loop of `hashSimilarity`: over the paired digits,
accumulate `1 - |aᵢ - bᵢ| / 10`. -/
def posScoreSum (aPos bPos : List Char) : ℚ :=
  (aPos.zip bPos).foldl (fun acc p => acc + (1 - |digitVal p.1 - digitVal p.2| / 10)) 0

/-- `hashSimilarity(a, b)` from `visual/fingerprint.ts`. -/
def hashSimilarity (a b : String) : ℚ :=
  if a = b then 1
  else if a = "" ∨ b = "" then 0
  else if jsStartsWith a "POS:" && jsStartsWith b "POS:" then
    let aParts := jsSplit '|' a
    let bParts := jsSplit '|' b
    let aPos := jsSliceFrom 4 (aParts.headD "")
    let bPos := jsSliceFrom 4 (bParts.headD "")
    let posScore := posScoreSum aPos.data bPos.data / 4
    let aColor := aParts.find? (fun p => jsStartsWith p "CLR:")
    let bColor := bParts.find? (fun p => jsStartsWith p "CLR:")
    let colorScore :=
      match aColor, bColor with
      | some ac, some bc => hexColorSimilarity (jsSliceFrom 4 ac) (jsSliceFrom 4 bc)
      | _, _ => 1/2
    6/10 * posScore + 4/10 * colorScore
  else
    let maxLen : ℚ := max a.length b.length
    let matchCount : ℚ := ((a.data.zip b.data).filter (fun p => p.1 = p.2)).length
    matchCount / maxLen

/-! ## VID tracker (`visual/vid.ts`) -/

/-- `VIDConfig`. -/
structure VIDConfig where
  expireMs : ℚ
  bboxDistanceThreshold : ℚ
  fingerprintSimilarityThreshold : ℚ
  bboxWeight : ℚ
deriving DecidableEq

/-- `DEFAULT_VID_CONFIG`. -/
def DEFAULT_VID_CONFIG : VIDConfig :=
  { expireMs := 15000
    bboxDistanceThreshold := 15/100
    fingerprintSimilarityThreshold := 6/10
    bboxWeight := 4/10 }

/-- `VIDEntry`. -/
structure VIDEntry where
  vid : VID
  bbox : BBox
  kind : RegionKind
  fingerprint : String
  lastSeenMs : ℚ
  confidence : ℚ
deriving DecidableEq

/-- `VIDMatch`. -/
structure VIDMatch where
  vid : VID
  score : ℚ
  bboxDistance : ℚ
  fingerprintSimilarity : ℚ
deriving DecidableEq

/-- The tracker's private state: the `nextVidNum` counter and the
`Map<VID, VIDEntry>` in insertion order. -/
structure TrackerState where
  nextVidNum : ℕ
  entries : List VIDEntry
deriving DecidableEq

/-- The tracker's initial state (`nextVidNum = 1`, no entries). -/
def initialTracker : TrackerState := { nextVidNum := 1, entries := [] }

/-- `VIDTracker.bboxDistance` — euclidean distance between bbox centers. -/
def bboxDistance (a b : BBox) : ℚ :=
  let aCenterX := a.x + a.w / 2
  let aCenterY := a.y + a.h / 2
  let bCenterX := b.x + b.w / 2
  let bCenterY := b.y + b.h / 2
  let dx := aCenterX - bCenterX
  let dy := aCenterY - bCenterY
  mathSqrt (dx * dx + dy * dy)

/-- `VIDTracker.fingerprintSimilarity` — coarse character-match ratio. -/
def fingerprintSimilarity (a b : String) : ℚ :=
  if a = b then 1
  else if a = "" ∨ b = "" then 0
  else
    let maxLen : ℚ := max a.length b.length
    let matchCount : ℚ := ((a.data.zip b.data).filter (fun p => p.1 = p.2)).length
    matchCount / maxLen

/-- The per-entry body of `findBestMatch`'s loop: `none` when the entry is
rejected (kind mismatch, bbox too far, or fingerprint too different),
otherwise the scored match. -/
def candidateMatch (cfg : VIDConfig) (region : DetectedRegion) (entry : VIDEntry) :
    Option VIDMatch :=
  if entry.kind ≠ region.kind then none
  else
    let bboxDist := bboxDistance entry.bbox region.bbox
    let fpSim := fingerprintSimilarity entry.fingerprint region.fingerprint
    if cfg.bboxDistanceThreshold < bboxDist then none
    else if fpSim < cfg.fingerprintSimilarityThreshold then none
    else
      let bboxScore := 1 - bboxDist / cfg.bboxDistanceThreshold
      let score := cfg.bboxWeight * bboxScore + (1 - cfg.bboxWeight) * fpSim
      some { vid := entry.vid, score := score, bboxDistance := bboxDist,
             fingerprintSimilarity := fpSim }

/-- The accumulator update of `findBestMatch`: keep the incumbent unless
the new candidate's score is strictly greater. -/
def betterOf (best : Option VIDMatch) (m : VIDMatch) : Option VIDMatch :=
  match best with
  | none => some m
  | some b => if b.score < m.score then some m else some b

/-- `VIDTracker.findBestMatch` — fold over the live entries in iteration
order. -/
def findBestMatch (cfg : VIDConfig) (entries : List VIDEntry) (region : DetectedRegion) :
    Option VIDMatch :=
  entries.foldl
    (fun best e =>
      match candidateMatch cfg region e with
      | none => best
      | some m => betterOf best m)
    none

/-- Accumulators of the region-matching loop in `processRegions`. -/
structure ProcessAcc where
  assignments : List (DetectedRegion × VID)
  appeared : List VID
  updated : List VID
  usedVids : List VID
deriving DecidableEq

/-- The empty accumulator. -/
def emptyAcc : ProcessAcc :=
  { assignments := [], appeared := [], updated := [], usedVids := [] }

/-- In-place update of a matched entry (`entry.bbox = ...` etc. on the
`Map`'s entry object). -/
def updateEntry (entries : List VIDEntry) (vid : VID) (region : DetectedRegion)
    (nowMs score : ℚ) : List VIDEntry :=
  entries.map fun e =>
    if e.vid = vid then
      { e with bbox := region.bbox, fingerprint := region.fingerprint,
               lastSeenMs := nowMs, confidence := score }
    else e

/-- The mint branch of the region loop: fresh vid, new entry with
`confidence = 1.0`, recorded in `appeared` and `assignments`. -/
def mintRegion (st : TrackerState) (acc : ProcessAcc) (region : DetectedRegion)
    (nowMs : ℚ) : TrackerState × ProcessAcc :=
  let vid := st.nextVidNum
  ({ nextVidNum := st.nextVidNum + 1
     entries := st.entries ++
       [{ vid := vid, bbox := region.bbox, kind := region.kind,
          fingerprint := region.fingerprint, lastSeenMs := nowMs, confidence := 1 }] },
   { acc with assignments := acc.assignments ++ [(region, vid)],
              appeared := acc.appeared ++ [vid] })

/-- One iteration of the region loop of `processRegions`: reuse the best
match when it exists and its vid is unused, otherwise mint. -/
def trackStep (cfg : VIDConfig) (nowMs : ℚ) (s : TrackerState × ProcessAcc)
    (region : DetectedRegion) : TrackerState × ProcessAcc :=
  let (st, acc) := s
  match findBestMatch cfg st.entries region with
  | some m =>
    if acc.usedVids.contains m.vid then mintRegion st acc region nowMs
    else
      ({ st with entries := updateEntry st.entries m.vid region nowMs m.score },
       { acc with assignments := acc.assignments ++ [(region, m.vid)],
                  updated := acc.updated ++ [m.vid],
                  usedVids := acc.usedVids ++ [m.vid] })
  | none => mintRegion st acc region nowMs

/-- The full region-matching loop. -/
def matchRegions (cfg : VIDConfig) (st : TrackerState) (regions : List DetectedRegion)
    (nowMs : ℚ) : TrackerState × ProcessAcc :=
  regions.foldl (trackStep cfg nowMs) (st, emptyAcc)

/-- Result record of `processRegions`. -/
structure ProcessResult where
  assignments : List (DetectedRegion × VID)
  appeared : List VID
  updated : List VID
  expired : List VID
deriving DecidableEq

/-- `VIDTracker.processRegions`: match every region in input order, then
expire the unused entries not seen within `expireMs`. -/
def processRegions (cfg : VIDConfig) (st : TrackerState) (regions : List DetectedRegion)
    (nowMs : ℚ) : TrackerState × ProcessResult :=
  let s₁ := matchRegions cfg st regions nowMs
  let st₁ := s₁.1
  let acc := s₁.2
  let expiryThreshold := nowMs - cfg.expireMs
  let expired :=
    (st₁.entries.filter fun e =>
      !acc.usedVids.contains e.vid && decide (e.lastSeenMs < expiryThreshold)).map (·.vid)
  let entries' := st₁.entries.filter fun e => !expired.contains e.vid
  ({ st₁ with entries := entries' },
   { assignments := acc.assignments, appeared := acc.appeared,
     updated := acc.updated, expired := expired })

/-! ## Association-list model of `Map` / keyed records -/

/-- `Map.prototype.set` / keyed-record write: update in place when the key
exists (JavaScript keeps the original position), else append. -/
def alSet {κ β : Type} [DecidableEq κ] (l : List (κ × β)) (k : κ) (b : β) : List (κ × β) :=
  if l.any (fun p => p.1 = k) then l.map (fun p => if p.1 = k then (k, b) else p)
  else l ++ [(k, b)]

/-- `Map.prototype.get` / record read. -/
def alGet {κ β : Type} [DecidableEq κ] (l : List (κ × β)) (k : κ) : Option β :=
  (l.find? (fun p => p.1 = k)).map (·.2)

/-- `Map.prototype.delete` / record key removal. -/
def alDelete {κ β : Type} [DecidableEq κ] (l : List (κ × β)) (k : κ) : List (κ × β) :=
  l.filter (fun p => !(p.1 = k : Bool))

/-! ## Events (`events/visual.ts`) -/

/-- `VisualEvent` — the tagged union, with `ts_obs_ms` and `confidence`
(`id` and `ts_emit_ms` are omitted, see the module comment). -/
inductive VisualEvent
  | snapshot_received (ts_obs : ℚ) (contentHash : String) (width height : ℚ)
      (regionCount : ℕ) (confidence : ℚ)
  | vid_appeared (ts_obs : ℚ) (vid : VID) (kind : RegionKind) (bbox : BBox) (confidence : ℚ)
  | vid_disappeared (ts_obs : ℚ) (vid : VID) (confidence : ℚ)
  | hand_raised (ts_obs : ℚ) (vid : VID) (confidence : ℚ)
  | hand_lowered (ts_obs : ℚ) (vid : VID) (confidence : ℚ)
  | screen_share_started (ts_obs : ℚ) (vid : VID) (confidence : ℚ)
  | screen_share_stopped (ts_obs : ℚ) (vid : VID) (confidence : ℚ)
  | slide_changed (ts_obs : ℚ) (vid : VID) (toHash : String) (fromHash : Option String)
      (confidence : ℚ)
  | layout_changed (ts_obs : ℚ) (fromL toL : LayoutType) (confidence : ℚ)
  | audio_video_link (ts_obs : ℚ) (audioSid : String) (vid : VID) (confidence : ℚ)
deriving DecidableEq

/-! ## Visual-state reducer (`state/visual.ts`) -/

/-- `VIDState`. -/
structure VIDState where
  vid : VID
  lastSeenMs : ℚ
  bbox : BBox
  kind : RegionKind
  signals : VisualSignals
  confidence : ℚ
  audioSid : Option String := none
  fingerprint : Option String := none
deriving DecidableEq

/-- `ScreenShareState`. -/
structure ScreenShareState where
  active : Bool
  vid : Option VID := none
  slideHash : Option String := none
deriving DecidableEq

/-- `VisualState`. -/
structure VisualState where
  vids : List (VID × VIDState)
  screenShare : ScreenShareState
  layout : LayoutType
  handRaisedCount : ℕ
  lastSnapshotMs : ℚ
  snapshotCount : ℕ
deriving DecidableEq

/-- `createInitialVisualState()`. -/
def createInitialVisualState : VisualState :=
  { vids := [], screenShare := { active := false }, layout := LayoutType.unknownLayout,
    handRaisedCount := 0, lastSnapshotMs := 0, snapshotCount := 0 }

/-- `setVID(state, vidState)`. -/
def setVID (state : VisualState) (vidState : VIDState) : VisualState :=
  { state with vids := alSet state.vids vidState.vid vidState }

/-- `removeVID(state, vid)`. -/
def removeVID (state : VisualState) (vid : VID) : VisualState :=
  { state with vids := alDelete state.vids vid }

/-- `updateVIDSignals(state, vid, signals, lastSeenMs)`; the
`Partial<VisualSignals>` spread is modelled by the update function `upd`
(each call site overrides exactly the fields its object literal carries). -/
def updateVIDSignals (state : VisualState) (vid : VID) (upd : VisualSignals → VisualSignals)
    (lastSeenMs : ℚ) : VisualState :=
  match alGet state.vids vid with
  | none => state
  | some existing =>
    setVID state { existing with signals := upd existing.signals, lastSeenMs := lastSeenMs }

/-- `setScreenShare(state, screenShare)`. -/
def setScreenShare (state : VisualState) (screenShare : ScreenShareState) : VisualState :=
  { state with screenShare := screenShare }

/-- `setLayout(state, layout)`. -/
def setLayout (state : VisualState) (layout : LayoutType) : VisualState :=
  { state with layout := layout }

/-- `updateHandRaisedCount(state)` — recompute the derived counter from
the `signals.handRaised === true` filter. -/
def updateHandRaisedCount (state : VisualState) : VisualState :=
  { state with handRaisedCount :=
      (state.vids.filter (fun p => p.2.signals.handRaised = some true)).length }

/-- `recordSnapshot(state, timestampMs)`. -/
def recordSnapshot (state : VisualState) (timestampMs : ℚ) : VisualState :=
  { state with lastSnapshotMs := timestampMs, snapshotCount := state.snapshotCount + 1 }

/-- `linkAudioToVID(state, vid, audioSid)`. -/
def linkAudioToVID (state : VisualState) (vid : VID) (audioSid : String) : VisualState :=
  match alGet state.vids vid with
  | none => state
  | some existing => setVID state { existing with audioSid := some audioSid }

/-- `visualStateReducer(state, event)`. -/
def visualStateReducer (state : VisualState) (event : VisualEvent) : VisualState :=
  match event with
  | VisualEvent.snapshot_received ts _ _ _ _ _ => recordSnapshot state ts
  | VisualEvent.vid_appeared ts vid kind bbox confidence =>
    setVID state
      { vid := vid, lastSeenMs := ts, bbox := bbox, kind := kind,
        signals := {}, confidence := confidence }
  | VisualEvent.vid_disappeared _ vid _ =>
    let newState := removeVID state vid
    let newState :=
      if state.screenShare.vid = some vid then
        setScreenShare newState { active := false }
      else newState
    updateHandRaisedCount newState
  | VisualEvent.hand_raised ts vid _ =>
    updateHandRaisedCount
      (updateVIDSignals state vid (fun s => { s with handRaised := some true }) ts)
  | VisualEvent.hand_lowered ts vid _ =>
    updateHandRaisedCount
      (updateVIDSignals state vid (fun s => { s with handRaised := some false }) ts)
  | VisualEvent.screen_share_started ts vid _ =>
    let newState := updateVIDSignals state vid (fun s => { s with isPresenting := some true }) ts
    setScreenShare newState { active := true, vid := some vid }
  | VisualEvent.screen_share_stopped ts vid _ =>
    let newState := updateVIDSignals state vid (fun s => { s with isPresenting := some false }) ts
    setScreenShare newState { active := false }
  | VisualEvent.slide_changed ts vid toHash _ _ =>
    let newState := updateVIDSignals state vid (fun s => { s with slideHash := some toHash }) ts
    if state.screenShare.vid = some vid then
      setScreenShare newState { state.screenShare with slideHash := some toHash }
    else newState
  | VisualEvent.layout_changed _ _ toL _ => setLayout state toL
  | VisualEvent.audio_video_link _ audioSid vid _ => linkAudioToVID state vid audioSid

/-- `applyEvents(state, events)`. -/
def applyEvents (state : VisualState) (events : List VisualEvent) : VisualState :=
  events.foldl visualStateReducer state

/-- `getPresentingVID(state)` (a present `vid` string is always truthy). -/
def getPresentingVID (state : VisualState) : Option VIDState :=
  match state.screenShare.active, state.screenShare.vid with
  | true, some vid => alGet state.vids vid
  | _, _ => none

/-! ## Delta detector (`visual/delta.ts`) -/

/-- The signal fields used as debounce/confirmed keys (the source keys the
maps by the string `"{vid}:{field}"`; see the module comment). -/
inductive SignalField
  | handRaised
  | isPresenting
  | slideHash
deriving DecidableEq

/-- A value stored in `confirmedSignals`: booleans for the debounced
fields, the confirmed slide-hash string under `slideHash` keys (the
source stores it through a cast into the same `Map`). -/
inductive SigVal
  | b (value : Bool)
  | s (value : String)
deriving DecidableEq

/-- JavaScript truthiness of a stored signal value. -/
def SigVal.truthy : SigVal → Bool
  | SigVal.b value => value
  | SigVal.s value => value ≠ ""

/-- `PendingSignal` (its `value` is always a boolean: `processSignalChange`
is only ever called with the two debounced boolean fields). -/
structure PendingSignal where
  vid : VID
  field : SignalField
  value : Bool
  seenCount : ℕ
  firstSeenMs : ℚ
deriving DecidableEq

/-- `DeltaConfig`. -/
structure DeltaConfig where
  debounceSnapshots : ℕ
  vid : VIDConfig
deriving DecidableEq

/-- `DEFAULT_DELTA_CONFIG` (with the tracker defaults merged in). -/
def DEFAULT_DELTA_CONFIG : DeltaConfig :=
  { debounceSnapshots := 2, vid := DEFAULT_VID_CONFIG }

/-- The detector's private state. -/
structure DetectorState where
  tracker : TrackerState
  pending : List ((VID × SignalField) × PendingSignal)
  confirmed : List ((VID × SignalField) × SigVal)
  previousLayout : LayoutType
deriving DecidableEq

/-- The detector's initial (reset) state. -/
def initialDetector : DetectorState :=
  { tracker := initialTracker, pending := [], confirmed := [],
    previousLayout := LayoutType.unknownLayout }

/-- `processSignalChange(vid, field, newValue, nowMs)` on the two debounce
maps; returns the transition (`some true` = turned on, `some false` =
turned off, `none` = no change) and the updated maps. -/
def processSignalChange (debounceSnapshots : ℕ)
    (pending : List ((VID × SignalField) × PendingSignal))
    (confirmed : List ((VID × SignalField) × SigVal))
    (vid : VID) (field : SignalField) (newValue : Bool) (nowMs : ℚ) :
    Option Bool × List ((VID × SignalField) × PendingSignal) ×
      List ((VID × SignalField) × SigVal) :=
  let key := (vid, field)
  let confirmedValue := (alGet confirmed key).getD (SigVal.b false)
  if SigVal.b newValue = confirmedValue then
    (none, alDelete pending key, confirmed)
  else
    match alGet pending key with
    | none =>
      (none,
       alSet pending key
         { vid := vid, field := field, value := newValue, seenCount := 1,
           firstSeenMs := nowMs },
       confirmed)
    | some p =>
      if p.value ≠ newValue then
        (none,
         alSet pending key
           { vid := vid, field := field, value := newValue, seenCount := 1,
             firstSeenMs := nowMs },
         confirmed)
      else
        let p' := { p with seenCount := p.seenCount + 1 }
        if debounceSnapshots ≤ p'.seenCount then
          (some newValue, alDelete pending key, alSet confirmed key (SigVal.b newValue))
        else
          (none, alSet pending key p', confirmed)

/-- `checkSignalChanges(vid, newSignals, nowMs)`: debounce the two boolean
signals, then the undebounced slide-hash check; returns the emitted events
and the updated maps. -/
def checkSignalChanges (debounceSnapshots : ℕ)
    (pending : List ((VID × SignalField) × PendingSignal))
    (confirmed : List ((VID × SignalField) × SigVal))
    (vid : VID) (newSignals : VisualSignals) (nowMs : ℚ) :
    List VisualEvent × List ((VID × SignalField) × PendingSignal) ×
      List ((VID × SignalField) × SigVal) :=
  let r₁ := processSignalChange debounceSnapshots pending confirmed vid
    SignalField.handRaised (newSignals.handRaised.getD false) nowMs
  let events₁ : List VisualEvent :=
    match r₁.1 with
    | some true => [VisualEvent.hand_raised nowMs vid 1]
    | some false => [VisualEvent.hand_lowered nowMs vid 1]
    | none => []
  let r₂ := processSignalChange debounceSnapshots r₁.2.1 r₁.2.2 vid
    SignalField.isPresenting (newSignals.isPresenting.getD false) nowMs
  let events₂ : List VisualEvent :=
    match r₂.1 with
    | some true => [VisualEvent.screen_share_started nowMs vid 1]
    | some false => [VisualEvent.screen_share_stopped nowMs vid 1]
    | none => []
  let pending₂ := r₂.2.1
  let confirmed₂ := r₂.2.2
  let confirmedPresenting :=
    ((alGet confirmed₂ (vid, SignalField.isPresenting)).map SigVal.truthy).getD false
  let prevSlideHash : Option String :=
    match alGet confirmed₂ (vid, SignalField.slideHash) with
    | some (SigVal.s value) => some value
    | _ => none
  match newSignals.slideHash with
  | some sh =>
    if confirmedPresenting ∧ sh ≠ "" ∧ some sh ≠ prevSlideHash then
      (events₁ ++ events₂ ++ [VisualEvent.slide_changed nowMs vid sh prevSlideHash 1],
       pending₂, alSet confirmed₂ (vid, SignalField.slideHash) (SigVal.s sh))
    else
      (events₁ ++ events₂, pending₂, confirmed₂)
  | none => (events₁ ++ events₂, pending₂, confirmed₂)

/-- `clearSignalsForVID(vid)` — drop every pending/confirmed entry whose
key belongs to `vid` (source: keys starting with `"{vid}:"`). -/
def clearSignalsForVID (vid : VID)
    (pending : List ((VID × SignalField) × PendingSignal))
    (confirmed : List ((VID × SignalField) × SigVal)) :
    List ((VID × SignalField) × PendingSignal) × List ((VID × SignalField) × SigVal) :=
  (pending.filter (fun p => !(p.1.1 = vid : Bool)),
   confirmed.filter (fun p => !(p.1.1 = vid : Bool)))

/-- The per-assignment body of `buildNextState`'s loop. -/
def buildVIDState (tracker : TrackerState)
    (confirmed : List ((VID × SignalField) × SigVal))
    (prevState : VisualState) (region : DetectedRegion) (vid : VID) (nowMs : ℚ) :
    VIDState :=
  let prevVidState := alGet prevState.vids vid
  let entry := tracker.entries.find? (fun e => e.vid = vid)
  let confirmedHandRaised :=
    ((alGet confirmed (vid, SignalField.handRaised)).map SigVal.truthy).getD false
  let confirmedPresenting :=
    ((alGet confirmed (vid, SignalField.isPresenting)).map SigVal.truthy).getD false
  { vid := vid
    lastSeenMs := nowMs
    bbox := region.bbox
    kind := region.kind
    signals :=
      { handRaised := some confirmedHandRaised
        isPresenting := some confirmedPresenting
        cameraOn := region.signals.cameraOn
        isActiveSpeaker := region.signals.isActiveSpeaker
        slideHash := if confirmedPresenting then region.signals.slideHash else none }
    confidence := (entry.map (fun e => e.confidence)).getD 1
    fingerprint := some region.fingerprint
    audioSid := prevVidState.bind (fun v => v.audioSid) }

/-- `buildNextState(prevState, assignments, nowMs)` (reads the tracker,
the confirmed map and `previousLayout`). -/
def buildNextState (tracker : TrackerState)
    (confirmed : List ((VID × SignalField) × SigVal))
    (previousLayout : LayoutType) (prevState : VisualState)
    (assignments : List (DetectedRegion × VID)) (nowMs : ℚ) : VisualState :=
  let vids := assignments.foldl
    (fun acc p => alSet acc p.2 (buildVIDState tracker confirmed prevState p.1 p.2 nowMs))
    []
  let presentingVid := (vids.map (fun p => p.2)).find?
    (fun v => v.signals.isPresenting.getD false)
  let screenShare : ScreenShareState :=
    match presentingVid with
    | some pv => { active := true, vid := some pv.vid, slideHash := pv.signals.slideHash }
    | none => { active := false }
  let handRaisedCount :=
    ((vids.map (fun p => p.2)).filter (fun v => v.signals.handRaised.getD false)).length
  { vids := vids
    screenShare := screenShare
    layout := previousLayout
    handRaisedCount := handRaisedCount
    lastSnapshotMs := nowMs
    snapshotCount := prevState.snapshotCount + 1 }

/-- `DeltaResult` plus the updated detector state. -/
structure DeltaResult where
  nextState : VisualState
  events : List VisualEvent
  detector : DetectorState
deriving DecidableEq

/-- `computeDeltas(prevState, regions, detectedLayout, nowMs, contentHash,
width, height)`. -/
def computeDeltas (cfg : DeltaConfig) (dst : DetectorState) (prevState : VisualState)
    (regions : List DetectedRegion) (detectedLayout : LayoutType) (nowMs : ℚ)
    (contentHash : String) (width height : ℚ) : DeltaResult :=
  let snapshotEvent :=
    VisualEvent.snapshot_received nowMs contentHash width height regions.length 1
  let pr := processRegions cfg.vid dst.tracker regions nowMs
  let tracker' := pr.1
  let res := pr.2
  let appearedEvents := res.appeared.filterMap fun vid =>
    (res.assignments.find? (fun p => p.2 = vid)).map fun p =>
      VisualEvent.vid_appeared nowMs vid p.1.kind p.1.bbox 1
  let disappeared := res.expired.foldl
    (fun (s : List VisualEvent × _ × _) vid =>
      let cleared := clearSignalsForVID vid s.2.1 s.2.2
      (s.1 ++ [VisualEvent.vid_disappeared nowMs vid 1], cleared.1, cleared.2))
    (([] : List VisualEvent), dst.pending, dst.confirmed)
  let signalsOut := res.assignments.foldl
    (fun (s : List VisualEvent × _ × _) p =>
      let r := checkSignalChanges cfg.debounceSnapshots s.2.1 s.2.2 p.2 p.1.signals nowMs
      (s.1 ++ r.1, r.2.1, r.2.2))
    (([] : List VisualEvent), disappeared.2.1, disappeared.2.2)
  let layoutChange :=
    detectedLayout ≠ LayoutType.unknownLayout ∧ detectedLayout ≠ dst.previousLayout
  let layoutEvents : List VisualEvent :=
    if layoutChange then
      [VisualEvent.layout_changed nowMs dst.previousLayout detectedLayout 1]
    else []
  let previousLayout' := if layoutChange then detectedLayout else dst.previousLayout
  let events := [snapshotEvent] ++ appearedEvents ++ disappeared.1 ++ signalsOut.1 ++
    layoutEvents
  let nextState := buildNextState tracker' signalsOut.2.2 previousLayout' prevState
    res.assignments nowMs
  { nextState := nextState
    events := events
    detector :=
      { tracker := tracker', pending := signalsOut.2.1, confirmed := signalsOut.2.2,
        previousLayout := previousLayout' } }

/-- One snapshot submission: the per-call inputs of `computeDeltas`. -/
structure SnapshotCall where
  regions : List DetectedRegion
  layout : LayoutType
  nowMs : ℚ
  contentHash : String
  width : ℚ
  height : ℚ
deriving DecidableEq

/-- Run the detector over a sequence of snapshots, threading its own
`nextState` back in as `prevState` and concatenating the event logs. -/
def runDetector (cfg : DeltaConfig) (dst : DetectorState) (state : VisualState)
    (log : List VisualEvent) : List SnapshotCall → DetectorState × VisualState × List VisualEvent
  | [] => (dst, state, log)
  | call :: rest =>
    let r := computeDeltas cfg dst state call.regions call.layout call.nowMs
      call.contentHash call.width call.height
    runDetector cfg r.detector r.nextState (log ++ r.events) rest

/-! ## Verbalizer (`ad/verbalizer.ts`) -/

/-- The verbosity styles. -/
inductive Verbosity
  | minimal
  | normal
deriving DecidableEq

/-- `VerbalizerConfig`. -/
structure VerbalizerConfig where
  useLLM : Bool
  maxLength : ℕ
  verbosity : Verbosity
deriving DecidableEq

/-- `DEFAULT_VERBALIZER_CONFIG`. -/
def DEFAULT_VERBALIZER_CONFIG : VerbalizerConfig :=
  { useLLM := false, maxLength := 120, verbosity := Verbosity.normal }

/-- `PROHIBITED_TERMS` — terms that must never appear in AD output. -/
def PROHIBITED_TERMS : List String :=
  ["man", "woman", "boy", "girl", "person named", "user named",
   "wearing", "dressed", "hair", "face", "eyes", "skin", "looks like",
   "attractive", "young", "old", "tall", "short", "glasses",
   "happy", "sad", "angry", "excited", "bored", "confused", "frustrated",
   "smiling", "frowning", "laughing", "crying",
   "white", "black", "asian", "latino", "hispanic", "african",
   "elderly", "teenager", "child", "adult"]

/-- The `TEMPLATES` table: `(minimal, normal)` for each allowed event
type, `none` for the event types absent from the table. -/
def eventTemplates : VisualEvent → Option (String × String)
  | VisualEvent.hand_raised _ _ _ =>
    some ("Hand raised", "Participant ${position} raised their hand")
  | VisualEvent.hand_lowered _ _ _ =>
    some ("Hand lowered", "Participant ${position} lowered their hand")
  | VisualEvent.screen_share_started _ _ _ =>
    some ("Screen sharing started", "Screen sharing has started")
  | VisualEvent.screen_share_stopped _ _ _ =>
    some ("Screen sharing ended", "Screen sharing has ended")
  | VisualEvent.slide_changed _ _ _ _ _ =>
    some ("Slide changed", "The presentation has moved to a new slide")
  | VisualEvent.layout_changed _ _ _ _ =>
    some ("Layout: ${to}", "View changed to ${to} layout")
  | VisualEvent.vid_appeared _ _ _ _ _ =>
    some ("Participant joined", "A new participant has appeared")
  | VisualEvent.vid_disappeared _ _ _ =>
    some ("Participant left", "A participant is no longer visible")
  | _ => none

/-- JavaScript array indexing `arr[i]` for a possibly out-of-range or
negative number index. -/
def jsIndex (l : List String) (i : ℤ) : Option String :=
  if i < 0 then none else l.get? i.toNat

/-- `getPositionDescription(vid, state)` — 3×3 grid words. -/
def getPositionDescription (vid : VID) (state : VisualState) : String :=
  match alGet state.vids vid with
  | none => "unknown position"
  | some vidState =>
    let col := jsFloor (vidState.bbox.x * 3)
    let row := jsFloor (vidState.bbox.y * 3)
    let colNames := ["left", "center", "right"]
    let rowNames := ["top", "middle", "bottom"]
    ((jsIndex rowNames row).getD "middle") ++ " " ++ ((jsIndex colNames col).getD "center")

/-- `formatLayoutName(layout)`. -/
def formatLayoutName : LayoutType → String
  | LayoutType.grid => "grid"
  | LayoutType.speaker => "speaker"
  | LayoutType.presentation => "presentation"
  | LayoutType.unknownLayout => "default"

/-- `templateVerbalize(event, state, verbosity)`. -/
def templateVerbalize (event : VisualEvent) (state : VisualState)
    (verbosity : Verbosity) : String :=
  match eventTemplates event with
  | none => ""
  | some templates =>
    let template :=
      match verbosity with
      | Verbosity.minimal => templates.1
      | Verbosity.normal => templates.2
    let template :=
      match event with
      | VisualEvent.layout_changed _ _ toL _ =>
        jsReplace template "${to}" (formatLayoutName toL)
      | _ => template
    match event with
    | VisualEvent.hand_raised _ vid _ =>
      jsReplace template "${position}" (getPositionDescription vid state)
    | VisualEvent.hand_lowered _ vid _ =>
      jsReplace template "${position}" (getPositionDescription vid state)
    | _ => template

/-- `validateLLMOutput(output, maxLength)` — `(valid, reason?)`. -/
def validateLLMOutput (output : String) (maxLength : ℕ) : Bool × Option String :=
  if maxLength < output.length then (false, some "Output exceeds maximum length")
  else
    match PROHIBITED_TERMS.find? (fun term => jsIncludes (jsToLower output) (jsToLower term)) with
    | some term => (false, some ("Contains prohibited term: " ++ term))
    | none =>
      if (jsTrim output).length = 0 then (false, some "Empty output")
      else (true, none)

/-- `LLMVerbalizerContext` (the `eventData` record is modelled by the
optional fields the source can put into it). -/
structure LLMVerbalizerContext where
  eventType : VisualEvent
  position : Option String
  kind : Option RegionKind
  fromLayout : Option String
  toLayout : Option String
  participantCount : ℕ
  handRaisedCount : ℕ
  isScreenSharing : Bool
  currentLayout : LayoutType
  verbosity : Verbosity

/-- The payload `vid` of an event, when the payload has one
(`'vid' in event.payload`). -/
def eventVid : VisualEvent → Option VID
  | VisualEvent.vid_appeared _ vid _ _ _ => some vid
  | VisualEvent.vid_disappeared _ vid _ => some vid
  | VisualEvent.hand_raised _ vid _ => some vid
  | VisualEvent.hand_lowered _ vid _ => some vid
  | VisualEvent.screen_share_started _ vid _ => some vid
  | VisualEvent.screen_share_stopped _ vid _ => some vid
  | VisualEvent.slide_changed _ vid _ _ _ => some vid
  | VisualEvent.audio_video_link _ _ vid _ => some vid
  | _ => none

/-- `buildLLMContext(event, state, verbosity)`. -/
def buildLLMContext (event : VisualEvent) (state : VisualState)
    (verbosity : Verbosity) : LLMVerbalizerContext :=
  let vidData :=
    match eventVid event with
    | some vid =>
      match alGet state.vids vid with
      | some vidState => (some (getPositionDescription vid state), some vidState.kind)
      | none => (none, none)
    | none => (none, none)
  let layoutData :=
    match event with
    | VisualEvent.layout_changed _ fromL toL _ =>
      (some (formatLayoutName fromL), some (formatLayoutName toL))
    | _ => (none, none)
  { eventType := event
    position := vidData.1
    kind := vidData.2
    fromLayout := layoutData.1
    toLayout := layoutData.2
    participantCount :=
      (state.vids.filter (fun p => p.2.kind = RegionKind.tile)).length
    handRaisedCount := state.handRaisedCount
    isScreenSharing := state.screenShare.active
    currentLayout := state.layout
    verbosity := verbosity }

/-- `AllowedADEvent` from `ad/policy.ts`. -/
structure AllowedADEvent where
  event : VisualEvent
  priority : ℚ
deriving DecidableEq

/-- `Verbalizer.verbalize(allowedEvent, state)`: the injected async LLM
handler is modelled as a function into `Except` (`Except.error` models a
throw or rejected promise). -/
def verbalize (config : VerbalizerConfig)
    (llmHandler : Option (LLMVerbalizerContext → Except String String))
    (allowedEvent : AllowedADEvent) (state : VisualState) : String :=
  let event := allowedEvent.event
  let fallback := templateVerbalize event state config.verbosity
  if config.useLLM then
    match llmHandler with
    | some handler =>
      match handler (buildLLMContext event state config.verbosity) with
      | Except.ok llmOutput =>
        if (validateLLMOutput llmOutput config.maxLength).1 then llmOutput
        else fallback
      | Except.error _ => fallback
    | none => fallback
  else fallback

/-! ## Specification-side definitions

The definitions in this section are written from the specification's own
words (not from the sources); the theorems below compare the embedded
sources against them. -/

/-- The decimal digit character for `n ≤ 9`. -/
def digitChar (n : ℕ) : Char := Char.ofNat (48 + n)

/-- A well-formed position-only fingerprint `"POS:" ++ four digits`. -/
def mkPosFP (d₁ d₂ d₃ d₄ : ℕ) : String :=
  String.mk ("POS:".data ++ [digitChar d₁, digitChar d₂, digitChar d₃, digitChar d₄])

/-- A well-formed fingerprint with a color part:
`"POS:" ++ four digits ++ "|CLR:" ++ color`. -/
def mkColorFP (d₁ d₂ d₃ d₄ : ℕ) (color : String) : String :=
  String.mk ("POS:".data ++ [digitChar d₁, digitChar d₂, digitChar d₃, digitChar d₄] ++
    "|CLR:".data ++ color.data)

/-- Spec wording for one position digit: `1 − |aᵢ − bᵢ| / 10`. -/
def specDigitScore (a b : ℕ) : ℚ := 1 - |(a : ℚ) - (b : ℚ)| / 10

/-- Spec wording for the color sub-score of two six-character color parts:
`1 − euclidean(rgbA, rgbB) / sqrt(3·255²)`. -/
def specColorScore (a b : String) : ℚ :=
  let aR := hexPair (a.data.getD 0 ' ') (a.data.getD 1 ' ')
  let aG := hexPair (a.data.getD 2 ' ') (a.data.getD 3 ' ')
  let aB := hexPair (a.data.getD 4 ' ') (a.data.getD 5 ' ')
  let bR := hexPair (b.data.getD 0 ' ') (b.data.getD 1 ' ')
  let bG := hexPair (b.data.getD 2 ' ') (b.data.getD 3 ' ')
  let bB := hexPair (b.data.getD 4 ' ') (b.data.getD 5 ' ')
  1 - mathSqrt ((aR - bR) ^ 2 + (aG - bG) ^ 2 + (aB - bB) ^ 2) / mathSqrt (3 * 255 ^ 2)

/-- Spec wording for the claim's best-candidate selection: a non-rejected
candidate match of maximum score, the earliest such entry in iteration
order (ties broken by iteration order, stable). -/
def IsBestCandidate (cfg : VIDConfig) (entries : List VIDEntry)
    (region : DetectedRegion) (m : VIDMatch) : Prop :=
  ∃ i e, entries.get? i = some e ∧ candidateMatch cfg region e = some m ∧
    (∀ j e' m', j < i → entries.get? j = some e' →
      candidateMatch cfg region e' = some m' → m'.score < m.score) ∧
    (∀ j e' m', entries.get? j = some e' →
      candidateMatch cfg region e' = some m' → m'.score ≤ m.score)

/-- Spec-side debounce machine state for one `vid:field` key: the
confirmed boolean (initially false) and the pending entry
`(target, seenCount)`, if any. -/
structure DebounceState where
  confirmed : Bool
  pending : Option (Bool × ℕ)
deriving DecidableEq

/-- The initial spec debounce state. -/
def initialDebounce : DebounceState := { confirmed := false, pending := none }

/-- One step of the spec debounce protocol (§4.3.1 of the specification),
returning the new state and the confirmed transition, if any:
* incoming equal to confirmed: erase any pending entry, no event;
* no pending entry, or pending entry with a different target: start a new
  pending entry with `seenCount = 1`;
* same target as pending: increment `seenCount`; when it reaches
  `debounceSnapshots`, erase the pending entry, set confirmed to the
  target and signal the transition. -/
def debounceSpecStep (debounceSnapshots : ℕ) (st : DebounceState) (incoming : Bool) :
    DebounceState × Option Bool :=
  if incoming = st.confirmed then ({ st with pending := none }, none)
  else
    match st.pending with
    | none => ({ st with pending := some (incoming, 1) }, none)
    | some (target, seen) =>
      if target ≠ incoming then ({ st with pending := some (incoming, 1) }, none)
      else if debounceSnapshots ≤ seen + 1 then
        ({ confirmed := incoming, pending := none }, some incoming)
      else ({ st with pending := some (target, seen + 1) }, none)

/-- Run the spec debounce machine over an input sequence, counting the
confirmed transitions to `target` (`true` counts low→high confirmations,
`false` high→low ones). -/
def debounceConfirmCount (debounceSnapshots : ℕ) (st : DebounceState) (target : Bool) :
    List Bool → ℕ
  | [] => 0
  | incoming :: rest =>
    let r := debounceSpecStep debounceSnapshots st incoming
    (if r.2 = some target then 1 else 0) +
      debounceConfirmCount debounceSnapshots r.1 target rest

/-- The value a region assigned to `v` feeds into the debounce protocol
for the boolean signal selected by `sel` (missing → `false`); `none` when
`v` is not assigned in this call. -/
def assignedInput (res : ProcessResult) (v : VID) (sel : VisualSignals → Option Bool) :
    Option Bool :=
  (res.assignments.find? (fun p => p.2 = v)).map (fun p => (sel p.1.signals).getD false)

/-- The input trace of vid `v`'s boolean signal `sel` over a sequence of
snapshot calls: one input per call in which `v` is assigned. -/
def vidTrace (cfg : DeltaConfig) (dst : DetectorState) (state : VisualState) (v : VID)
    (sel : VisualSignals → Option Bool) : List SnapshotCall → List Bool
  | [] => []
  | call :: rest =>
    let pr := processRegions cfg.vid dst.tracker call.regions call.nowMs
    let r := computeDeltas cfg dst state call.regions call.layout call.nowMs
      call.contentHash call.width call.height
    match assignedInput pr.2 v sel with
    | some b => b :: vidTrace cfg r.detector r.nextState v sel rest
    | none => vidTrace cfg r.detector r.nextState v sel rest

/-- The four debounced boolean event kinds. -/
inductive BoolEvtKind
  | raised
  | lowered
  | ssStarted
  | ssStopped
deriving DecidableEq

/-- Whether an event is the given debounced boolean event for vid `v`. -/
def isBoolEvtFor (k : BoolEvtKind) (v : VID) : VisualEvent → Bool
  | VisualEvent.hand_raised _ w _ => k = BoolEvtKind.raised ∧ w = v
  | VisualEvent.hand_lowered _ w _ => k = BoolEvtKind.lowered ∧ w = v
  | VisualEvent.screen_share_started _ w _ => k = BoolEvtKind.ssStarted ∧ w = v
  | VisualEvent.screen_share_stopped _ w _ => k = BoolEvtKind.ssStopped ∧ w = v
  | _ => false

/-- Count the occurrences of a debounced boolean event for `v` in a log. -/
def countBoolEvt (k : BoolEvtKind) (v : VID) (log : List VisualEvent) : ℕ :=
  (log.filter (isBoolEvtFor k v)).length

/-- A full detector run from the reset state and the initial visual
state, with an empty accumulated log. -/
def runDetectorFull (cfg : DeltaConfig) (calls : List SnapshotCall) :
    DetectorState × VisualState × List VisualEvent :=
  runDetector cfg initialDetector createInitialVisualState [] calls

/-- The vids of the tracker's live entries, in iteration order. -/
def entryVids (st : TrackerState) : List VID := st.entries.map (fun e => e.vid)

/-- Tracker well-formedness: live vids are below the mint counter and
pairwise distinct (`Map` keys are unique). -/
def TrackerWF (st : TrackerState) : Prop :=
  (∀ e ∈ st.entries, e.vid < st.nextVidNum) ∧
  st.entries.Pairwise (fun a b => a.vid ≠ b.vid)

/-- Detector well-formedness: the tracker is well-formed, every
pending/confirmed key belongs to an already-minted vid, and confirmed
values are booleans under the debounced boolean fields and strings under
`slideHash` keys. -/
def DetectorWF (dst : DetectorState) : Prop :=
  TrackerWF dst.tracker ∧
  (∀ p ∈ dst.pending, p.1.1 < dst.tracker.nextVidNum) ∧
  (∀ p ∈ dst.confirmed, p.1.1 < dst.tracker.nextVidNum) ∧
  (∀ p ∈ dst.confirmed,
    match p.1.2 with
    | SignalField.slideHash => ∃ s, p.2 = SigVal.s s
    | _ => ∃ b, p.2 = SigVal.b b)

/-- Key liveness: every pending/confirmed key belongs to a live entry
(holds throughout a run whenever `expireMs` is nonnegative). -/
def KeysLive (dst : DetectorState) : Prop :=
  (∀ p ∈ dst.pending, p.1.1 ∈ entryVids dst.tracker) ∧
  (∀ p ∈ dst.confirmed, p.1.1 ∈ entryVids dst.tracker)

/-- The confirmed boolean of `vid:field`, read the way the detector reads
it (truthiness of the stored value, absent → `false`). -/
def confirmedFlag (confirmed : List ((VID × SignalField) × SigVal)) (v : VID)
    (f : SignalField) : Bool :=
  ((alGet confirmed (v, f)).map SigVal.truthy).getD false

/-- The spec debounce state recorded in the detector's maps for one
`vid:field` key. -/
def keyDebounceState (dst : DetectorState) (v : VID) (f : SignalField) : DebounceState :=
  { confirmed := confirmedFlag dst.confirmed v f
    pending := (alGet dst.pending (v, f)).map (fun p => (p.value, p.seenCount)) }

/-- The vid of a screen-share start/stop event. -/
def ssEventVid : VisualEvent → Option VID
  | VisualEvent.screen_share_started _ vid _ => some vid
  | VisualEvent.screen_share_stopped _ vid _ => some vid
  | _ => none

/-- A string free of every prohibited term as a case-insensitive
substring. -/
def NoProhibitedTerms (s : String) : Prop :=
  ∀ t ∈ PROHIBITED_TERMS, jsIncludes (jsToLower s) (jsToLower t) = false

/-- The derived-counter invariant of the reducer state:
`handRaisedCount` equals the number of vids whose `signals.handRaised`
is `true`. -/
def HandCountInv (s : VisualState) : Prop :=
  s.handRaisedCount = (s.vids.filter (fun p => p.2.signals.handRaised = some true)).length

/-- Spec wording for the non-`POS:` similarity fallback: the number of
positions with equal characters divided by `max(|a|, |b|)`. -/
def specMatchFraction (a b : String) : ℚ :=
  (((a.data.zip b.data).countP (fun p => p.1 = p.2)) : ℚ) / max a.length b.length

/-! ## Concrete scenario inputs used by counterexamples and witnesses -/

/-- A tile region at horizontal offset `x` (row `y = 0.4`, size
`0.2 × 0.2`). -/
def tileRegion (x : ℚ) (fp : String) (signals : VisualSignals) : DetectedRegion :=
  { bbox := { x := x, y := 4/10, w := 2/10, h := 2/10 }, kind := RegionKind.tile,
    fingerprint := fp, signals := signals }

/-- A snapshot call with fixed metadata. -/
def snap (regions : List DetectedRegion) (nowMs : ℚ) : SnapshotCall :=
  { regions := regions, layout := LayoutType.unknownLayout, nowMs := nowMs,
    contentHash := "h", width := 640, height := 360 }

/-! ## Association-list lemmas -/

theorem alGet_nil {κ β : Type} [DecidableEq κ] (k : κ) :
    alGet ([] : List (κ × β)) k = none := rfl

theorem alGet_cons {κ β : Type} [DecidableEq κ] (x : κ × β) (t : List (κ × β)) (k : κ) :
    alGet (x :: t) k = if x.1 = k then some x.2 else alGet t k := by
  unfold alGet
  by_cases hx : x.1 = k <;> simp [List.find?, hx]

theorem alDelete_cons {κ β : Type} [DecidableEq κ] (x : κ × β) (t : List (κ × β)) (k : κ) :
    alDelete (x :: t) k = if x.1 = k then alDelete t k else x :: alDelete t k := by
  unfold alDelete
  by_cases hx : x.1 = k <;> simp [hx]

theorem alGet_update_of_any {κ β : Type} [DecidableEq κ] (l : List (κ × β)) (k : κ) (b : β)
    (h : l.any (fun p => p.1 = k) = true) :
    alGet (l.map (fun p => if p.1 = k then (k, b) else p)) k = some b := by
  induction l with
  | nil => simp at h
  | cons p t ih =>
    by_cases hp : p.1 = k
    · rw [List.map_cons, if_pos hp, alGet_cons]
      simp
    · have ht : t.any (fun p => p.1 = k) = true := by
        simp only [List.any_cons, Bool.or_eq_true, decide_eq_true_eq] at h
        exact h.resolve_left hp
      rw [List.map_cons, if_neg hp, alGet_cons, if_neg hp]
      exact ih ht

theorem alGet_update_ne {κ β : Type} [DecidableEq κ] (l : List (κ × β)) (k k' : κ) (b : β)
    (h : k' ≠ k) :
    alGet (l.map (fun p => if p.1 = k then (k, b) else p)) k' = alGet l k' := by
  induction l with
  | nil => rfl
  | cons p t ih =>
    by_cases hp : p.1 = k
    · rw [List.map_cons, if_pos hp, alGet_cons, alGet_cons, if_neg (fun hh => h hh.symm),
        if_neg (fun hh => h (hp ▸ hh).symm)]
      exact ih
    · rw [List.map_cons, if_neg hp, alGet_cons, alGet_cons]
      by_cases hp' : p.1 = k'
      · rw [if_pos hp', if_pos hp']
      · rw [if_neg hp', if_neg hp']
        exact ih

theorem alGet_append_fresh {κ β : Type} [DecidableEq κ] (l : List (κ × β)) (k : κ) (b : β) :
    alGet (l ++ [(k, b)]) k = if (alGet l k).isSome then alGet l k else some b := by
  induction l with
  | nil => simp [alGet_cons, alGet_nil]
  | cons p t ih =>
    rw [List.cons_append, alGet_cons, alGet_cons]
    by_cases hp : p.1 = k
    · simp [hp]
    · simpa [hp] using ih

theorem alGet_append_ne {κ β : Type} [DecidableEq κ] (l : List (κ × β)) (k k' : κ) (b : β)
    (h : k' ≠ k) : alGet (l ++ [(k, b)]) k' = alGet l k' := by
  induction l with
  | nil =>
    have : ¬((k : κ) = k') := fun hh => h hh.symm
    simp [alGet_cons, alGet_nil, this]
  | cons p t ih =>
    rw [List.cons_append, alGet_cons, alGet_cons]
    by_cases hp' : p.1 = k'
    · rw [if_pos hp', if_pos hp']
    · rw [if_neg hp', if_neg hp']
      exact ih

theorem any_key_iff_isSome {κ β : Type} [DecidableEq κ] (l : List (κ × β)) (k : κ) :
    l.any (fun p => p.1 = k) = (alGet l k).isSome := by
  induction l with
  | nil => rfl
  | cons p t ih =>
    rw [List.any_cons, alGet_cons]
    by_cases hp : p.1 = k <;> simp [hp, ih]

theorem alGet_alSet_self {κ β : Type} [DecidableEq κ] (l : List (κ × β)) (k : κ) (b : β) :
    alGet (alSet l k b) k = some b := by
  unfold alSet
  by_cases h : l.any (fun p => p.1 = k)
  · rw [if_pos h]
    exact alGet_update_of_any l k b h
  · rw [if_neg h, alGet_append_fresh]
    have hfalse : (alGet l k).isSome = false := by
      rw [← any_key_iff_isSome]
      exact eq_false_of_ne_true h
    simp [hfalse]

theorem alGet_alSet_ne {κ β : Type} [DecidableEq κ] (l : List (κ × β)) (k k' : κ) (b : β)
    (h : k' ≠ k) : alGet (alSet l k b) k' = alGet l k' := by
  unfold alSet
  by_cases hany : l.any (fun p => p.1 = k)
  · rw [if_pos hany]
    exact alGet_update_ne l k k' b h
  · rw [if_neg hany]
    exact alGet_append_ne l k k' b h

theorem alGet_alDelete_self {κ β : Type} [DecidableEq κ] (l : List (κ × β)) (k : κ) :
    alGet (alDelete l k) k = none := by
  induction l with
  | nil => rfl
  | cons p t ih =>
    rw [alDelete_cons]
    by_cases hp : p.1 = k
    · rw [if_pos hp]; exact ih
    · rw [if_neg hp, alGet_cons, if_neg hp]; exact ih

theorem alGet_alDelete_ne {κ β : Type} [DecidableEq κ] (l : List (κ × β)) (k k' : κ)
    (h : k' ≠ k) : alGet (alDelete l k) k' = alGet l k' := by
  induction l with
  | nil => rfl
  | cons p t ih =>
    rw [alDelete_cons, alGet_cons]
    by_cases hp : p.1 = k
    · rw [if_pos hp, if_neg (fun hh => h ((hp ▸ hh) : (k = k')).symm)]
      exact ih
    · rw [if_neg hp, alGet_cons]
      by_cases hp' : p.1 = k'
      · rw [if_pos hp', if_pos hp']
      · rw [if_neg hp', if_neg hp']
        exact ih

theorem mem_alSet {κ β : Type} [DecidableEq κ] {l : List (κ × β)} {k : κ} {b : β}
    {p : κ × β} (h : p ∈ alSet l k b) : p.1 = k ∨ p ∈ l := by
  unfold alSet at h
  by_cases hany : l.any (fun p => p.1 = k)
  · rw [if_pos hany] at h
    rcases List.mem_map.mp h with ⟨q, hq, hfq⟩
    by_cases hqk : q.1 = k
    · left
      rw [← hfq]
      simp [hqk]
    · right
      rw [← hfq]
      simpa [hqk] using hq
  · rw [if_neg hany] at h
    rcases List.mem_append.mp h with h | h
    · right; exact h
    · left
      simp only [List.mem_singleton] at h
      rw [h]

theorem mem_alDelete {κ β : Type} [DecidableEq κ] {l : List (κ × β)} {k : κ}
    {p : κ × β} (h : p ∈ alDelete l k) : p ∈ l :=
  List.mem_of_mem_filter h

theorem keys_alSet {κ β : Type} [DecidableEq κ] (l : List (κ × β)) (k : κ) (b : β) :
    (alSet l k b).map (fun p => p.1) =
      if l.any (fun p => p.1 = k) then l.map (fun p => p.1)
      else l.map (fun p => p.1) ++ [k] := by
  unfold alSet
  by_cases hany : l.any (fun p => p.1 = k)
  · rw [if_pos hany, if_pos hany, List.map_map]
    refine List.map_congr_left ?_
    intro p _
    by_cases hp : p.1 = k <;> simp [hp]
  · rw [if_neg hany, if_neg hany]
    simp

/-! ## Evaluation helpers -/

/-- `Math.sqrt` evaluated at a perfect square of a nonnegative rational
(the shape of every concrete distance used below). -/
theorem mathSqrt_sq (a : ℚ) (h : 0 ≤ a) : mathSqrt (a * a) = a := by
  unfold mathSqrt Rat.sqrt
  rw [Rat.mul_self_num, Rat.mul_self_den, Int.sqrt_eq, Nat.sqrt_eq,
    Int.natAbs_of_nonneg (Rat.num_nonneg.mpr h)]
  exact Rat.mkRat_self a

/-! ## Counting and update lemmas for the reducer -/

theorem filter_length_update {κ β : Type} [DecidableEq κ] (l : List (κ × β)) (k : κ) (b : β)
    (q : κ × β → Bool)
    (hkeys : (l.map (fun p => p.1)).Nodup)
    (hsame : ∀ old, alGet l k = some old → q (k, b) = q (k, old)) :
    ((l.map (fun p => if p.1 = k then (k, b) else p)).filter q).length =
      (l.filter q).length := by
  induction l with
  | nil => rfl
  | cons p t ih =>
    rw [List.map_cons] at hkeys ⊢
    rw [List.nodup_cons] at hkeys
    by_cases hp : p.1 = k
    · rw [if_pos hp]
      have hold : alGet (p :: t) k = some p.2 := by rw [alGet_cons, if_pos hp]
      have hq : q (k, b) = q (k, p.2) := hsame p.2 hold
      have hqp : q (k, p.2) = q p := by
        conv_rhs => rw [show p = (p.1, p.2) from rfl]
        rw [hp]
      have htail : t.map (fun p => if p.1 = k then (k, b) else p) = t := by
        have hcongr : t.map (fun p => if p.1 = k then (k, b) else p) = t.map id := by
          refine List.map_congr_left ?_
          intro x hx
          have hxk : x.1 ≠ k := by
            rw [← hp]
            intro hh
            exact hkeys.1 (by rw [← hh]; exact List.mem_map_of_mem _ hx)
          rw [if_neg hxk]
          rfl
        rw [hcongr, List.map_id]
      rw [htail, List.filter_cons, List.filter_cons, hq, hqp]
      by_cases hqv : q p = true <;> simp [hqv]
    · rw [if_neg hp, List.filter_cons, List.filter_cons]
      have hrec := ih hkeys.2 (fun old hold => hsame old (by rwa [alGet_cons, if_neg hp]))
      by_cases hqv : q p = true <;> simp [hqv, hrec]

theorem handCountInv_updateHandRaisedCount (s : VisualState) :
    HandCountInv (updateHandRaisedCount s) := by
  simp [HandCountInv, updateHandRaisedCount]

/-! ## C5 — `generateFingerprint` does not clamp its digits -/

/-- C5: the claim states each position digit of `generateFingerprint` is
clamped to `[0, 9]`, making the position part exactly four characters.  At
the valid full-frame bbox `{x: 0, y: 0, w: 1, h: 1}` the source computes
`Math.floor(1 * 10) = 10` with no clamping and renders the two-character
digit `"10"` twice: the result is `"POS:001010"` (ten characters), not the
claimed clamped `"POS:0099"`. -/
theorem c5_generateFingerprint_unclamped :
    generateFingerprint { x := 0, y := 0, w := 1, h := 1 } none = "POS:001010" ∧
    (generateFingerprint { x := 0, y := 0, w := 1, h := 1 } none).length = 10 ∧
    generateFingerprint { x := 0, y := 0, w := 1, h := 1 } none ≠ "POS:0099" := by
  have h : generateFingerprint { x := 0, y := 0, w := 1, h := 1 } none = "POS:001010" := by
    simp only [generateFingerprint]
    norm_num [jsFloor]
    decide
  refine ⟨h, ?_, ?_⟩
  · rw [h]; decide
  · rw [h]; decide

/-! ## C8 — position wording falls back instead of clamping -/

theorem jsIndexD_three (a b c dflt : String) (i : ℤ) :
    (jsIndex [a, b, c] i).getD dflt =
      if i = 0 then a else if i = 1 then b else if i = 2 then c else dflt := by
  unfold jsIndex
  rcases i with n | n
  · rcases n with _ | _ | _ | n
    · rfl
    · rfl
    · rfl
    · have h1 : ¬(Int.ofNat (n + 3) < 0) := by rw [Int.ofNat_eq_coe]; omega
      rw [if_neg h1]
      have h2 : ¬(Int.ofNat (n + 3) = 0) := by rw [Int.ofNat_eq_coe]; omega
      have h3 : ¬(Int.ofNat (n + 3) = 1) := by rw [Int.ofNat_eq_coe]; omega
      have h4 : ¬(Int.ofNat (n + 3) = 2) := by rw [Int.ofNat_eq_coe]; omega
      rw [if_neg h2, if_neg h3, if_neg h4]
      simp [List.get?]
  · have h1 : Int.negSucc n < 0 := Int.negSucc_lt_zero n
    rw [if_pos h1]
    have h2 : ¬(Int.negSucc n = 0) := by omega
    have h3 : ¬(Int.negSucc n = 1) := by omega
    have h4 : ¬(Int.negSucc n = 2) := by omega
    rw [if_neg h2, if_neg h3, if_neg h4]
    rfl

theorem if_three_of_le (a b c dflt : String) (i : ℤ) (h : 3 ≤ i) :
    (if i = 0 then a else if i = 1 then b else if i = 2 then c else dflt) = dflt := by
  rw [if_neg (by omega), if_neg (by omega), if_neg (by omega)]

/-- C8 (counterexample): for a vid whose bbox has `x = 1, y = 1` the
claim's clamping derivation yields `"bottom right"`, but the source's
out-of-range array indexing falls back to the `?? 'middle'` /
`?? 'center'` defaults, producing `"middle center"`. -/
theorem c8_counterexample :
    getPositionDescription 1
      { vids := [(1, { vid := 1, lastSeenMs := 0, bbox := { x := 1, y := 1, w := 1/2, h := 1/2 },
                       kind := RegionKind.tile, signals := {}, confidence := 1 })],
        screenShare := { active := false }, layout := LayoutType.grid,
        handRaisedCount := 0, lastSnapshotMs := 0, snapshotCount := 0 } = "middle center" ∧
    ("middle center" : String) ≠ "bottom right" := by
  constructor
  · norm_num [getPositionDescription, alGet, List.find?, jsFloor]
    decide
  · decide

/-- C8 (amended): the position wording maps `floor(x·3)` and `floor(y·3)`
through the row/column word tables when the index lands in `[0, 2]` and
otherwise falls back to `"middle"` / `"center"` — there is no clamping;
in particular for `bbox.x ≥ 1` the column reads `"center"` (not
`"right"`) and for `bbox.y ≥ 1` the row reads `"middle"` (not
`"bottom"`). -/
theorem c8_position_wording (state : VisualState) (vid : VID) (vs : VIDState)
    (h : alGet state.vids vid = some vs) :
    (getPositionDescription vid state =
      (if jsFloor (vs.bbox.y * 3) = 0 then "top"
       else if jsFloor (vs.bbox.y * 3) = 1 then "middle"
       else if jsFloor (vs.bbox.y * 3) = 2 then "bottom"
       else "middle") ++ " " ++
      (if jsFloor (vs.bbox.x * 3) = 0 then "left"
       else if jsFloor (vs.bbox.x * 3) = 1 then "center"
       else if jsFloor (vs.bbox.x * 3) = 2 then "right"
       else "center")) ∧
    (1 ≤ vs.bbox.x →
      (if jsFloor (vs.bbox.x * 3) = 0 then "left"
       else if jsFloor (vs.bbox.x * 3) = 1 then "center"
       else if jsFloor (vs.bbox.x * 3) = 2 then "right"
       else "center") = "center") ∧
    (1 ≤ vs.bbox.y →
      (if jsFloor (vs.bbox.y * 3) = 0 then "top"
       else if jsFloor (vs.bbox.y * 3) = 1 then "middle"
       else if jsFloor (vs.bbox.y * 3) = 2 then "bottom"
       else "middle") = "middle") := by
  have hx3 : ∀ q : ℚ, 1 ≤ q → 3 ≤ jsFloor (q * 3) := by
    intro q hq
    unfold jsFloor
    exact Int.le_floor.mpr (by push_cast; linarith)
  refine ⟨?_, ?_, ?_⟩
  · simp only [getPositionDescription, h]
    rw [jsIndexD_three, jsIndexD_three]
  · intro hx
    exact if_three_of_le _ _ _ _ _ (hx3 _ hx)
  · intro hy
    exact if_three_of_le _ _ _ _ _ (hx3 _ hy)

/-- C8 (witness). -/
theorem c8_position_wording_witness :
    (alGet [((1 : VID),
      ({ vid := 1, lastSeenMs := 0, bbox := { x := 0, y := 0, w := 1/2, h := 1/2 },
         kind := RegionKind.tile, signals := {}, confidence := 1 } : VIDState))] 1).isSome = true ∧
    getPositionDescription 1
      { vids := [(1, { vid := 1, lastSeenMs := 0, bbox := { x := 0, y := 0, w := 1/2, h := 1/2 },
                       kind := RegionKind.tile, signals := {}, confidence := 1 })],
        screenShare := { active := false }, layout := LayoutType.grid,
        handRaisedCount := 0, lastSnapshotMs := 0, snapshotCount := 0 } = "top left" := by
  refine ⟨rfl, ?_⟩
  have := (c8_position_wording
    { vids := [(1, { vid := 1, lastSeenMs := 0, bbox := { x := 0, y := 0, w := 1/2, h := 1/2 },
                     kind := RegionKind.tile, signals := {}, confidence := 1 })],
      screenShare := { active := false }, layout := LayoutType.grid,
      handRaisedCount := 0, lastSnapshotMs := 0, snapshotCount := 0 } 1
    { vid := 1, lastSeenMs := 0, bbox := { x := 0, y := 0, w := 1/2, h := 1/2 },
      kind := RegionKind.tile, signals := {}, confidence := 1 } rfl).1
  rw [this]
  have h0 : jsFloor ((0 : ℚ) * 3) = 0 := by norm_num [jsFloor]
  rw [h0]
  decide

theorem alGet_mem {κ β : Type} [DecidableEq κ] {l : List (κ × β)} {k : κ} {b : β}
    (h : alGet l k = some b) : (k, b) ∈ l := by
  induction l with
  | nil => simp [alGet, List.find?] at h
  | cons p t ih =>
    rw [alGet_cons] at h
    by_cases hp : p.1 = k
    · rw [if_pos hp] at h
      injection h with he
      have : p = (k, b) := by
        rw [Prod.ext_iff]
        exact ⟨hp, he⟩
      rw [← this]
      exact List.mem_cons_self p t
    · rw [if_neg hp] at h
      exact List.mem_cons_of_mem p (ih h)

/-! ## C10 — ghost screen share for an unknown vid -/

/-- C10: a `screen_share_started` event for a vid with no entry in
`state.vids` leaves `vids` unchanged (`updateVIDSignals` returns the state
untouched when the vid is absent), yet sets the top-level `screenShare` to
`{active: true, vid}`; `getPresentingVID` on the resulting state returns
`undefined`. -/
theorem c10_ghost_screen_share (state : VisualState) (v : VID) (ts conf : ℚ)
    (h : alGet state.vids v = none) :
    (visualStateReducer state (VisualEvent.screen_share_started ts v conf)).vids =
      state.vids ∧
    (visualStateReducer state (VisualEvent.screen_share_started ts v conf)).screenShare =
      { active := true, vid := some v, slideHash := none } ∧
    getPresentingVID (visualStateReducer state (VisualEvent.screen_share_started ts v conf)) =
      none := by
  have h1 : updateVIDSignals state v (fun s => { s with isPresenting := some true }) ts
      = state := by
    unfold updateVIDSignals
    rw [h]
  have hred : visualStateReducer state (VisualEvent.screen_share_started ts v conf) =
      setScreenShare state { active := true, vid := some v, slideHash := none } := by
    simp only [visualStateReducer, h1]
  rw [hred]
  refine ⟨rfl, rfl, ?_⟩
  simpa only [getPresentingVID, setScreenShare] using h

/-- C10 (witness). -/
theorem c10_ghost_screen_share_witness :
    alGet createInitialVisualState.vids 7 = none ∧
    getPresentingVID
      (visualStateReducer createInitialVisualState
        (VisualEvent.screen_share_started 0 7 1)) = none :=
  ⟨rfl, (c10_ghost_screen_share createInitialVisualState 7 0 1 rfl).2.2⟩

/-! ## C9 — the hand-raised counter invariant -/

theorem handCountInv_setScreenShare (s : VisualState) (ss : ScreenShareState)
    (h : HandCountInv s) : HandCountInv (setScreenShare s ss) := h

theorem handCountInv_setLayout (s : VisualState) (l : LayoutType)
    (h : HandCountInv s) : HandCountInv (setLayout s l) := h

theorem handCountInv_setVID_of_present (s : VisualState) (new : VIDState) (old : VIDState)
    (hkeys : (s.vids.map (fun p => p.1)).Nodup)
    (hinv : HandCountInv s)
    (hold : alGet s.vids new.vid = some old)
    (hsame : (new.signals.handRaised = some true) ↔ (old.signals.handRaised = some true)) :
    HandCountInv (setVID s new) := by
  unfold HandCountInv setVID alSet
  have hany : s.vids.any (fun p => p.1 = new.vid) = true := by
    rw [any_key_iff_isSome, hold]
    rfl
  rw [if_pos hany]
  simp only
  rw [filter_length_update s.vids new.vid new _ hkeys ?_]
  · exact hinv
  · intro old2 hold2
    rw [hold] at hold2
    injection hold2 with he
    rw [← he]
    simp only [decide_eq_decide]
    exact hsame

theorem handCountInv_updateVIDSignals (s : VisualState) (v : VID)
    (upd : VisualSignals → VisualSignals) (ts : ℚ)
    (hkeys : (s.vids.map (fun p => p.1)).Nodup)
    (hcons : ∀ p ∈ s.vids, p.2.vid = p.1)
    (hinv : HandCountInv s)
    (hpres : ∀ sig : VisualSignals, (upd sig).handRaised = sig.handRaised) :
    HandCountInv (updateVIDSignals s v upd ts) := by
  unfold updateVIDSignals
  cases halg : alGet s.vids v with
  | none => exact hinv
  | some ex =>
    have hexvid : ex.vid = v := hcons (v, ex) (alGet_mem halg)
    refine handCountInv_setVID_of_present s _ ex hkeys hinv ?_ ?_
    · simpa only [hexvid] using halg
    · simp only [hpres]

/-- C9 (counterexample): the claim quantifies over arbitrary event logs,
but a `vid_appeared` event that overwrites an existing vid whose hand is
raised resets the vid's signals without recomputing `handRaisedCount`:
after `[vid_appeared v1, hand_raised v1, vid_appeared v1]` the stored
counter is 1 while no vid has `handRaised = true`. -/
theorem c9_counterexample :
    ¬ HandCountInv (applyEvents createInitialVisualState
      [VisualEvent.vid_appeared 0 1 RegionKind.tile { x := 0, y := 0, w := 1/2, h := 1/2 } 1,
       VisualEvent.hand_raised 0 1 1,
       VisualEvent.vid_appeared 0 1 RegionKind.tile { x := 0, y := 0, w := 1/2, h := 1/2 } 1]) := by
  unfold HandCountInv
  decide

/-- C9 (amended): a single reducer step preserves the counter invariant
`handRaisedCount = #{vids with handRaised = true}` for every event,
provided a `vid_appeared` event does not overwrite an existing vid whose
`handRaised` is `true` (such an overwrite resets the signals without
recomputing the counter, which is what the counterexample exhibits).  The
two structural hypotheses say the state is a faithful JavaScript record:
vid keys are unique and each stored `VIDState.vid` matches its key. -/
theorem c9_hand_count_preserved (s : VisualState) (e : VisualEvent)
    (hkeys : (s.vids.map (fun p => p.1)).Nodup)
    (hcons : ∀ p ∈ s.vids, p.2.vid = p.1)
    (hinv : HandCountInv s)
    (happ : ∀ ts v kind bbox conf, e = VisualEvent.vid_appeared ts v kind bbox conf →
      ∀ vs, alGet s.vids v = some vs → ¬ vs.signals.handRaised = some true) :
    HandCountInv (visualStateReducer s e) := by
  cases e with
  | snapshot_received ts ch w hh rc =>
    simpa only [visualStateReducer, recordSnapshot, HandCountInv] using hinv
  | vid_appeared ts v kind bbox conf =>
    have happ' := fun vs h => happ ts v kind bbox conf rfl vs h
    simp only [visualStateReducer, setVID]
    unfold HandCountInv at hinv ⊢
    simp only
    unfold alSet
    by_cases hany : s.vids.any (fun p => p.1 = v)
    · rw [if_pos hany]
      have hsome : (alGet s.vids v).isSome = true := by
        rw [← any_key_iff_isSome]
        exact hany
      cases halg : alGet s.vids v with
      | none => rw [halg] at hsome; simp at hsome
      | some old =>
        rw [filter_length_update s.vids v _ _ hkeys ?_]
        · exact hinv
        · intro old2 hold2
          rw [halg] at hold2
          injection hold2 with he
          rw [← he]
          have hfalse := happ' old halg
          simp [hfalse]
    · rw [if_neg hany, List.filter_append]
      simp only [List.filter_cons, List.filter_nil]
      norm_num
      exact hinv
  | vid_disappeared ts v conf => exact handCountInv_updateHandRaisedCount _
  | hand_raised ts v conf => exact handCountInv_updateHandRaisedCount _
  | hand_lowered ts v conf => exact handCountInv_updateHandRaisedCount _
  | screen_share_started ts v conf =>
    exact handCountInv_setScreenShare _ _
      (handCountInv_updateVIDSignals s v _ ts hkeys hcons hinv (fun sig => rfl))
  | screen_share_stopped ts v conf =>
    exact handCountInv_setScreenShare _ _
      (handCountInv_updateVIDSignals s v _ ts hkeys hcons hinv (fun sig => rfl))
  | slide_changed ts v toHash fromHash conf =>
    simp only [visualStateReducer]
    by_cases hvid : s.screenShare.vid = some v
    · rw [if_pos hvid]
      exact handCountInv_setScreenShare _ _
        (handCountInv_updateVIDSignals s v _ ts hkeys hcons hinv (fun sig => rfl))
    · rw [if_neg hvid]
      exact handCountInv_updateVIDSignals s v _ ts hkeys hcons hinv (fun sig => rfl)
  | layout_changed ts fromL toL conf => exact handCountInv_setLayout _ _ hinv
  | audio_video_link ts sid v conf =>
    simp only [visualStateReducer]
    unfold linkAudioToVID
    cases halg : alGet s.vids v with
    | none => exact hinv
    | some ex =>
      have hexvid : ex.vid = v := hcons (v, ex) (alGet_mem halg)
      refine handCountInv_setVID_of_present s _ ex hkeys hinv ?_ Iff.rfl
      simpa only [hexvid] using halg

/-- C9 (witness). -/
theorem c9_hand_count_preserved_witness :
    HandCountInv (visualStateReducer createInitialVisualState
      (VisualEvent.hand_raised 0 1 1)) :=
  c9_hand_count_preserved createInitialVisualState (VisualEvent.hand_raised 0 1 1)
    List.nodup_nil (fun p hp => absurd hp (List.not_mem_nil p)) rfl
    (fun ts v kind bbox conf h => nomatch h)

/-! ## String-splitting lemmas for C6 -/

theorem jsSplitChars_ne_nil (sep : Char) (l : List Char) : jsSplitChars sep l ≠ [] := by
  cases l with
  | nil => simp [jsSplitChars]
  | cons c rest =>
    unfold jsSplitChars
    cases h : jsSplitChars sep rest with
    | nil => by_cases hc : c = sep <;> simp [hc]
    | cons hd tl => by_cases hc : c = sep <;> simp [hc]

theorem jsSplitChars_no_sep (sep : Char) (l : List Char) (h : ∀ c ∈ l, c ≠ sep) :
    jsSplitChars sep l = [l] := by
  induction l with
  | nil => rfl
  | cons c rest ih =>
    have hc : c ≠ sep := h c (List.mem_cons_self c rest)
    have hrest := ih (fun x hx => h x (List.mem_cons_of_mem c hx))
    unfold jsSplitChars
    rw [hrest]
    simp [hc]

theorem jsSplitChars_append_sep (sep : Char) (l₁ l₂ : List Char)
    (h₁ : ∀ c ∈ l₁, c ≠ sep) (h₂ : ∀ c ∈ l₂, c ≠ sep) :
    jsSplitChars sep (l₁ ++ sep :: l₂) = [l₁, l₂] := by
  induction l₁ with
  | nil =>
    simp only [List.nil_append]
    unfold jsSplitChars
    rw [jsSplitChars_no_sep sep l₂ h₂]
    simp
  | cons c rest ih =>
    have hc : c ≠ sep := h₁ c (List.mem_cons_self c rest)
    have hrest := ih (fun x hx => h₁ x (List.mem_cons_of_mem c hx))
    rw [List.cons_append]
    unfold jsSplitChars
    rw [hrest]
    simp [hc]

/-! ## Digit-character lemmas for C6 -/

theorem digitChar_toNat (d : ℕ) (h : d ≤ 9) : (digitChar d).toNat = 48 + d := by
  interval_cases d <;> decide

theorem digitVal_digitChar (d : ℕ) (h : d ≤ 9) : digitVal (digitChar d) = (d : ℚ) := by
  unfold digitVal
  rw [digitChar_toNat d h]
  push_cast
  ring

theorem digitChar_ne_pipe (d : ℕ) (h : d ≤ 9) : digitChar d ≠ '|' := by
  interval_cases d <;> decide

/-! ## C6 helper evaluations -/

theorem posScoreSum_four (a1 a2 a3 a4 b1 b2 b3 b4 : Char) :
    posScoreSum [a1, a2, a3, a4] [b1, b2, b3, b4] =
      (1 - |digitVal a1 - digitVal b1| / 10) + (1 - |digitVal a2 - digitVal b2| / 10) +
      (1 - |digitVal a3 - digitVal b3| / 10) + (1 - |digitVal a4 - digitVal b4| / 10) := by
  simp [posScoreSum, List.zip]

theorem mkPosFP_data (d₁ d₂ d₃ d₄ : ℕ) :
    (mkPosFP d₁ d₂ d₃ d₄).data =
      ['P', 'O', 'S', ':', digitChar d₁, digitChar d₂, digitChar d₃, digitChar d₄] := rfl

theorem mkColorFP_data (d₁ d₂ d₃ d₄ : ℕ) (c : String) :
    (mkColorFP d₁ d₂ d₃ d₄ c).data =
      ['P', 'O', 'S', ':', digitChar d₁, digitChar d₂, digitChar d₃, digitChar d₄] ++
        '|' :: ('C' :: 'L' :: 'R' :: ':' :: c.data) := rfl

theorem mkPosFP_ne_empty (d₁ d₂ d₃ d₄ : ℕ) : mkPosFP d₁ d₂ d₃ d₄ ≠ "" := by
  intro h
  have h2 : ['P', 'O', 'S', ':', digitChar d₁, digitChar d₂, digitChar d₃, digitChar d₄] =
      ([] : List Char) := (mkPosFP_data d₁ d₂ d₃ d₄).symm.trans (congrArg String.data h)
  exact List.noConfusion h2

theorem mkColorFP_ne_empty (d₁ d₂ d₃ d₄ : ℕ) (c : String) :
    mkColorFP d₁ d₂ d₃ d₄ c ≠ "" := by
  intro h
  have h2 : (['P', 'O', 'S', ':', digitChar d₁, digitChar d₂, digitChar d₃, digitChar d₄] ++
      '|' :: ('C' :: 'L' :: 'R' :: ':' :: c.data)) = ([] : List Char) :=
    (mkColorFP_data d₁ d₂ d₃ d₄ c).symm.trans (congrArg String.data h)
  simp at h2

theorem mkPosFP_no_pipe (d₁ d₂ d₃ d₄ : ℕ) (h₁ : d₁ ≤ 9) (h₂ : d₂ ≤ 9) (h₃ : d₃ ≤ 9)
    (h₄ : d₄ ≤ 9) : ∀ c ∈ (mkPosFP d₁ d₂ d₃ d₄).data, c ≠ '|' := by
  intro c hc
  rw [mkPosFP_data] at hc
  fin_cases hc
  · decide
  · decide
  · decide
  · decide
  · exact digitChar_ne_pipe d₁ h₁
  · exact digitChar_ne_pipe d₂ h₂
  · exact digitChar_ne_pipe d₃ h₃
  · exact digitChar_ne_pipe d₄ h₄

theorem hashSimilarity_mkPosFP (d₁ d₂ d₃ d₄ e₁ e₂ e₃ e₄ : ℕ)
    (hd₁ : d₁ ≤ 9) (hd₂ : d₂ ≤ 9) (hd₃ : d₃ ≤ 9) (hd₄ : d₄ ≤ 9)
    (he₁ : e₁ ≤ 9) (he₂ : e₂ ≤ 9) (he₃ : e₃ ≤ 9) (he₄ : e₄ ≤ 9)
    (hne : mkPosFP d₁ d₂ d₃ d₄ ≠ mkPosFP e₁ e₂ e₃ e₄) :
    hashSimilarity (mkPosFP d₁ d₂ d₃ d₄) (mkPosFP e₁ e₂ e₃ e₄) =
      6/10 * ((specDigitScore d₁ e₁ + specDigitScore d₂ e₂ + specDigitScore d₃ e₃ +
        specDigitScore d₄ e₄) / 4) + 4/10 * (1/2) := by
  unfold hashSimilarity
  rw [if_neg hne, if_neg ?hemp, if_pos ?hpos]
  case hemp =>
    push_neg
    exact ⟨mkPosFP_ne_empty d₁ d₂ d₃ d₄, mkPosFP_ne_empty e₁ e₂ e₃ e₄⟩
  case hpos => rfl
  have hsplitA : jsSplit '|' (mkPosFP d₁ d₂ d₃ d₄) = [mkPosFP d₁ d₂ d₃ d₄] := by
    unfold jsSplit
    rw [jsSplitChars_no_sep '|' _ (mkPosFP_no_pipe d₁ d₂ d₃ d₄ hd₁ hd₂ hd₃ hd₄)]
    rfl
  have hsplitB : jsSplit '|' (mkPosFP e₁ e₂ e₃ e₄) = [mkPosFP e₁ e₂ e₃ e₄] := by
    unfold jsSplit
    rw [jsSplitChars_no_sep '|' _ (mkPosFP_no_pipe e₁ e₂ e₃ e₄ he₁ he₂ he₃ he₄)]
    rfl
  rw [hsplitA, hsplitB]
  simp only [List.headD, List.find?]
  rw [show jsStartsWith (mkPosFP d₁ d₂ d₃ d₄) "CLR:" = false from rfl,
    show jsStartsWith (mkPosFP e₁ e₂ e₃ e₄) "CLR:" = false from rfl]
  simp only [List.find?]
  rw [show (jsSliceFrom 4 (mkPosFP d₁ d₂ d₃ d₄)).data =
      [digitChar d₁, digitChar d₂, digitChar d₃, digitChar d₄] from rfl,
    show (jsSliceFrom 4 (mkPosFP e₁ e₂ e₃ e₄)).data =
      [digitChar e₁, digitChar e₂, digitChar e₃, digitChar e₄] from rfl]
  rw [posScoreSum_four]
  rw [digitVal_digitChar d₁ hd₁, digitVal_digitChar d₂ hd₂, digitVal_digitChar d₃ hd₃,
    digitVal_digitChar d₄ hd₄, digitVal_digitChar e₁ he₁, digitVal_digitChar e₂ he₂,
    digitVal_digitChar e₃ he₃, digitVal_digitChar e₄ he₄]
  simp only [specDigitScore]

theorem hexColorSimilarity_eq_spec (ca cb : String) (hca : ca.length = 6)
    (hcb : cb.length = 6) : hexColorSimilarity ca cb = specColorScore ca cb := by
  unfold hexColorSimilarity specColorScore
  rw [if_neg (by push_neg; exact ⟨hca, hcb⟩)]
  rw [show (3 * 255 * 255 : ℚ) = 3 * 255 ^ 2 by norm_num]

theorem mkColorFP_pos_no_pipe (d₁ d₂ d₃ d₄ : ℕ) (h₁ : d₁ ≤ 9) (h₂ : d₂ ≤ 9) (h₃ : d₃ ≤ 9)
    (h₄ : d₄ ≤ 9) :
    ∀ c ∈ ['P', 'O', 'S', ':', digitChar d₁, digitChar d₂, digitChar d₃, digitChar d₄],
      c ≠ '|' := by
  intro c hc
  fin_cases hc
  · decide
  · decide
  · decide
  · decide
  · exact digitChar_ne_pipe d₁ h₁
  · exact digitChar_ne_pipe d₂ h₂
  · exact digitChar_ne_pipe d₃ h₃
  · exact digitChar_ne_pipe d₄ h₄

theorem hashSimilarity_mkColorFP (d₁ d₂ d₃ d₄ e₁ e₂ e₃ e₄ : ℕ) (ca cb : String)
    (hd₁ : d₁ ≤ 9) (hd₂ : d₂ ≤ 9) (hd₃ : d₃ ≤ 9) (hd₄ : d₄ ≤ 9)
    (he₁ : e₁ ≤ 9) (he₂ : e₂ ≤ 9) (he₃ : e₃ ≤ 9) (he₄ : e₄ ≤ 9)
    (hca : ca.length = 6) (hcb : cb.length = 6)
    (hpa : ∀ c ∈ ca.data, c ≠ '|') (hpb : ∀ c ∈ cb.data, c ≠ '|')
    (hne : mkColorFP d₁ d₂ d₃ d₄ ca ≠ mkColorFP e₁ e₂ e₃ e₄ cb) :
    hashSimilarity (mkColorFP d₁ d₂ d₃ d₄ ca) (mkColorFP e₁ e₂ e₃ e₄ cb) =
      6/10 * ((specDigitScore d₁ e₁ + specDigitScore d₂ e₂ + specDigitScore d₃ e₃ +
        specDigitScore d₄ e₄) / 4) + 4/10 * specColorScore ca cb := by
  unfold hashSimilarity
  rw [if_neg hne, if_neg ?hemp, if_pos ?hpos]
  case hemp =>
    push_neg
    exact ⟨mkColorFP_ne_empty d₁ d₂ d₃ d₄ ca, mkColorFP_ne_empty e₁ e₂ e₃ e₄ cb⟩
  case hpos => rfl
  have htailA : ∀ c ∈ 'C' :: 'L' :: 'R' :: ':' :: ca.data, c ≠ '|' := by
    intro c hc
    rcases List.mem_cons.mp hc with h | hc
    · subst h; decide
    rcases List.mem_cons.mp hc with h | hc
    · subst h; decide
    rcases List.mem_cons.mp hc with h | hc
    · subst h; decide
    rcases List.mem_cons.mp hc with h | hc
    · subst h; decide
    · exact hpa c hc
  have htailB : ∀ c ∈ 'C' :: 'L' :: 'R' :: ':' :: cb.data, c ≠ '|' := by
    intro c hc
    rcases List.mem_cons.mp hc with h | hc
    · subst h; decide
    rcases List.mem_cons.mp hc with h | hc
    · subst h; decide
    rcases List.mem_cons.mp hc with h | hc
    · subst h; decide
    rcases List.mem_cons.mp hc with h | hc
    · subst h; decide
    · exact hpb c hc
  have hsplitA : jsSplit '|' (mkColorFP d₁ d₂ d₃ d₄ ca) =
      [String.mk ['P', 'O', 'S', ':', digitChar d₁, digitChar d₂, digitChar d₃, digitChar d₄],
       String.mk ('C' :: 'L' :: 'R' :: ':' :: ca.data)] := by
    unfold jsSplit
    rw [mkColorFP_data,
      jsSplitChars_append_sep '|' _ _ (mkColorFP_pos_no_pipe d₁ d₂ d₃ d₄ hd₁ hd₂ hd₃ hd₄)
        htailA]
    rfl
  have hsplitB : jsSplit '|' (mkColorFP e₁ e₂ e₃ e₄ cb) =
      [String.mk ['P', 'O', 'S', ':', digitChar e₁, digitChar e₂, digitChar e₃, digitChar e₄],
       String.mk ('C' :: 'L' :: 'R' :: ':' :: cb.data)] := by
    unfold jsSplit
    rw [mkColorFP_data,
      jsSplitChars_append_sep '|' _ _ (mkColorFP_pos_no_pipe e₁ e₂ e₃ e₄ he₁ he₂ he₃ he₄)
        htailB]
    rfl
  rw [hsplitA, hsplitB]
  simp only [List.headD, List.find?]
  rw [show jsStartsWith (String.mk ['P', 'O', 'S', ':', digitChar d₁, digitChar d₂,
      digitChar d₃, digitChar d₄]) "CLR:" = false from rfl,
    show jsStartsWith (String.mk ['P', 'O', 'S', ':', digitChar e₁, digitChar e₂,
      digitChar e₃, digitChar e₄]) "CLR:" = false from rfl,
    show jsStartsWith (String.mk ('C' :: 'L' :: 'R' :: ':' :: ca.data)) "CLR:" = true from rfl,
    show jsStartsWith (String.mk ('C' :: 'L' :: 'R' :: ':' :: cb.data)) "CLR:" = true from rfl]
  simp only [List.find?]
  rw [show (jsSliceFrom 4 (String.mk ['P', 'O', 'S', ':', digitChar d₁, digitChar d₂,
      digitChar d₃, digitChar d₄])).data =
      [digitChar d₁, digitChar d₂, digitChar d₃, digitChar d₄] from rfl,
    show (jsSliceFrom 4 (String.mk ['P', 'O', 'S', ':', digitChar e₁, digitChar e₂,
      digitChar e₃, digitChar e₄])).data =
      [digitChar e₁, digitChar e₂, digitChar e₃, digitChar e₄] from rfl]
  rw [posScoreSum_four]
  rw [digitVal_digitChar d₁ hd₁, digitVal_digitChar d₂ hd₂, digitVal_digitChar d₃ hd₃,
    digitVal_digitChar d₄ hd₄, digitVal_digitChar e₁ he₁, digitVal_digitChar e₂ he₂,
    digitVal_digitChar e₃ he₃, digitVal_digitChar e₄ he₄]
  rw [show jsSliceFrom 4 (String.mk ('C' :: 'L' :: 'R' :: ':' :: ca.data)) = ca from rfl,
    show jsSliceFrom 4 (String.mk ('C' :: 'L' :: 'R' :: ':' :: cb.data)) = cb from rfl]
  rw [hexColorSimilarity_eq_spec ca cb hca hcb]
  simp only [specDigitScore]

theorem hashSimilarity_color_pos (d₁ d₂ d₃ d₄ e₁ e₂ e₃ e₄ : ℕ) (ca : String)
    (hd₁ : d₁ ≤ 9) (hd₂ : d₂ ≤ 9) (hd₃ : d₃ ≤ 9) (hd₄ : d₄ ≤ 9)
    (he₁ : e₁ ≤ 9) (he₂ : e₂ ≤ 9) (he₃ : e₃ ≤ 9) (he₄ : e₄ ≤ 9)
    (hpa : ∀ c ∈ ca.data, c ≠ '|') :
    hashSimilarity (mkColorFP d₁ d₂ d₃ d₄ ca) (mkPosFP e₁ e₂ e₃ e₄) =
      6/10 * ((specDigitScore d₁ e₁ + specDigitScore d₂ e₂ + specDigitScore d₃ e₃ +
        specDigitScore d₄ e₄) / 4) + 4/10 * (1/2) := by
  have hne : mkColorFP d₁ d₂ d₃ d₄ ca ≠ mkPosFP e₁ e₂ e₃ e₄ := by
    intro h
    have hlen := congrArg (fun s => s.data.length) h
    simp only [mkColorFP_data, mkPosFP_data, List.length_append, List.length_cons,
      List.length] at hlen
    omega
  unfold hashSimilarity
  rw [if_neg hne, if_neg ?hemp, if_pos ?hpos]
  case hemp =>
    push_neg
    exact ⟨mkColorFP_ne_empty d₁ d₂ d₃ d₄ ca, mkPosFP_ne_empty e₁ e₂ e₃ e₄⟩
  case hpos => rfl
  have htailA : ∀ c ∈ 'C' :: 'L' :: 'R' :: ':' :: ca.data, c ≠ '|' := by
    intro c hc
    rcases List.mem_cons.mp hc with h | hc
    · subst h; decide
    rcases List.mem_cons.mp hc with h | hc
    · subst h; decide
    rcases List.mem_cons.mp hc with h | hc
    · subst h; decide
    rcases List.mem_cons.mp hc with h | hc
    · subst h; decide
    · exact hpa c hc
  have hsplitA : jsSplit '|' (mkColorFP d₁ d₂ d₃ d₄ ca) =
      [String.mk ['P', 'O', 'S', ':', digitChar d₁, digitChar d₂, digitChar d₃, digitChar d₄],
       String.mk ('C' :: 'L' :: 'R' :: ':' :: ca.data)] := by
    unfold jsSplit
    rw [mkColorFP_data,
      jsSplitChars_append_sep '|' _ _ (mkColorFP_pos_no_pipe d₁ d₂ d₃ d₄ hd₁ hd₂ hd₃ hd₄)
        htailA]
    rfl
  have hsplitB : jsSplit '|' (mkPosFP e₁ e₂ e₃ e₄) = [mkPosFP e₁ e₂ e₃ e₄] := by
    unfold jsSplit
    rw [jsSplitChars_no_sep '|' _ (mkPosFP_no_pipe e₁ e₂ e₃ e₄ he₁ he₂ he₃ he₄)]
    rfl
  rw [hsplitA, hsplitB]
  simp only [List.headD, List.find?]
  rw [show jsStartsWith (String.mk ['P', 'O', 'S', ':', digitChar d₁, digitChar d₂,
      digitChar d₃, digitChar d₄]) "CLR:" = false from rfl,
    show jsStartsWith (String.mk ('C' :: 'L' :: 'R' :: ':' :: ca.data)) "CLR:" = true from rfl,
    show jsStartsWith (mkPosFP e₁ e₂ e₃ e₄) "CLR:" = false from rfl]
  simp only [List.find?]
  rw [show (jsSliceFrom 4 (String.mk ['P', 'O', 'S', ':', digitChar d₁, digitChar d₂,
      digitChar d₃, digitChar d₄])).data =
      [digitChar d₁, digitChar d₂, digitChar d₃, digitChar d₄] from rfl,
    show (jsSliceFrom 4 (mkPosFP e₁ e₂ e₃ e₄)).data =
      [digitChar e₁, digitChar e₂, digitChar e₃, digitChar e₄] from rfl]
  rw [posScoreSum_four]
  rw [digitVal_digitChar d₁ hd₁, digitVal_digitChar d₂ hd₂, digitVal_digitChar d₃ hd₃,
    digitVal_digitChar d₄ hd₄, digitVal_digitChar e₁ he₁, digitVal_digitChar e₂ he₂,
    digitVal_digitChar e₃ he₃, digitVal_digitChar e₄ he₄]
  simp only [specDigitScore]

theorem hashSimilarity_pos_color (d₁ d₂ d₃ d₄ e₁ e₂ e₃ e₄ : ℕ) (cb : String)
    (hd₁ : d₁ ≤ 9) (hd₂ : d₂ ≤ 9) (hd₃ : d₃ ≤ 9) (hd₄ : d₄ ≤ 9)
    (he₁ : e₁ ≤ 9) (he₂ : e₂ ≤ 9) (he₃ : e₃ ≤ 9) (he₄ : e₄ ≤ 9)
    (hpb : ∀ c ∈ cb.data, c ≠ '|') :
    hashSimilarity (mkPosFP d₁ d₂ d₃ d₄) (mkColorFP e₁ e₂ e₃ e₄ cb) =
      6/10 * ((specDigitScore d₁ e₁ + specDigitScore d₂ e₂ + specDigitScore d₃ e₃ +
        specDigitScore d₄ e₄) / 4) + 4/10 * (1/2) := by
  have hne : mkPosFP d₁ d₂ d₃ d₄ ≠ mkColorFP e₁ e₂ e₃ e₄ cb := by
    intro h
    have hlen := congrArg (fun s => s.data.length) h
    simp only [mkColorFP_data, mkPosFP_data, List.length_append, List.length_cons,
      List.length] at hlen
    omega
  unfold hashSimilarity
  rw [if_neg hne, if_neg ?hemp, if_pos ?hpos]
  case hemp =>
    push_neg
    exact ⟨mkPosFP_ne_empty d₁ d₂ d₃ d₄, mkColorFP_ne_empty e₁ e₂ e₃ e₄ cb⟩
  case hpos => rfl
  have htailB : ∀ c ∈ 'C' :: 'L' :: 'R' :: ':' :: cb.data, c ≠ '|' := by
    intro c hc
    rcases List.mem_cons.mp hc with h | hc
    · subst h; decide
    rcases List.mem_cons.mp hc with h | hc
    · subst h; decide
    rcases List.mem_cons.mp hc with h | hc
    · subst h; decide
    rcases List.mem_cons.mp hc with h | hc
    · subst h; decide
    · exact hpb c hc
  have hsplitA : jsSplit '|' (mkPosFP d₁ d₂ d₃ d₄) = [mkPosFP d₁ d₂ d₃ d₄] := by
    unfold jsSplit
    rw [jsSplitChars_no_sep '|' _ (mkPosFP_no_pipe d₁ d₂ d₃ d₄ hd₁ hd₂ hd₃ hd₄)]
    rfl
  have hsplitB : jsSplit '|' (mkColorFP e₁ e₂ e₃ e₄ cb) =
      [String.mk ['P', 'O', 'S', ':', digitChar e₁, digitChar e₂, digitChar e₃, digitChar e₄],
       String.mk ('C' :: 'L' :: 'R' :: ':' :: cb.data)] := by
    unfold jsSplit
    rw [mkColorFP_data,
      jsSplitChars_append_sep '|' _ _ (mkColorFP_pos_no_pipe e₁ e₂ e₃ e₄ he₁ he₂ he₃ he₄)
        htailB]
    rfl
  rw [hsplitA, hsplitB]
  simp only [List.headD, List.find?]
  rw [show jsStartsWith (mkPosFP d₁ d₂ d₃ d₄) "CLR:" = false from rfl,
    show jsStartsWith (String.mk ['P', 'O', 'S', ':', digitChar e₁, digitChar e₂,
      digitChar e₃, digitChar e₄]) "CLR:" = false from rfl,
    show jsStartsWith (String.mk ('C' :: 'L' :: 'R' :: ':' :: cb.data)) "CLR:" = true from rfl]
  simp only [List.find?]
  rw [show (jsSliceFrom 4 (mkPosFP d₁ d₂ d₃ d₄)).data =
      [digitChar d₁, digitChar d₂, digitChar d₃, digitChar d₄] from rfl,
    show (jsSliceFrom 4 (String.mk ['P', 'O', 'S', ':', digitChar e₁, digitChar e₂,
      digitChar e₃, digitChar e₄])).data =
      [digitChar e₁, digitChar e₂, digitChar e₃, digitChar e₄] from rfl]
  rw [posScoreSum_four]
  rw [digitVal_digitChar d₁ hd₁, digitVal_digitChar d₂ hd₂, digitVal_digitChar d₃ hd₃,
    digitVal_digitChar d₄ hd₄, digitVal_digitChar e₁ he₁, digitVal_digitChar e₂ he₂,
    digitVal_digitChar e₃ he₃, digitVal_digitChar e₄ he₄]
  simp only [specDigitScore]

theorem hashSimilarity_eq_of_eq (a b : String) (h : a = b) : hashSimilarity a b = 1 := by
  subst h
  unfold hashSimilarity
  rw [if_pos rfl]

theorem hashSimilarity_of_empty (a b : String) (hne : a ≠ b) (h : a = "" ∨ b = "") :
    hashSimilarity a b = 0 := by
  unfold hashSimilarity
  rw [if_neg hne, if_pos h]

theorem hashSimilarity_fallback (a b : String) (hne : a ≠ b) (hemp : ¬(a = "" ∨ b = ""))
    (hpos : ¬(jsStartsWith a "POS:" = true ∧ jsStartsWith b "POS:" = true)) :
    hashSimilarity a b = specMatchFraction a b := by
  unfold hashSimilarity
  rw [if_neg hne, if_neg hemp, if_neg ?hb]
  case hb =>
    rw [Bool.and_eq_true]
    exact hpos
  unfold specMatchFraction
  rw [List.countP_eq_length_filter]
  simp only [Nat.cast_max]

/-- C6: `hashSimilarity` computes exactly what the claim describes, case
by case in the claim's order: `1.0` on equal strings; `0` when either is
empty; on well-formed `"POS:"` fingerprints (four decimal digits,
optionally `"|CLR:"` plus a six-character color part without `'|'`) the
weighted sum `0.6·(mean of 1 − |aᵢ−bᵢ|/10) + 0.4·color`, where the color
sub-score is `1 − euclideanRGB/sqrt(3·255²)` when both carry a color part
and `0.5` otherwise; and in all remaining cases the fraction of equal
characters over `max(|a|,|b|)`. -/
theorem c6_hashSimilarity_spec :
    (∀ a b : String, a = b → hashSimilarity a b = 1) ∧
    (∀ a b : String, a ≠ b → (a = "" ∨ b = "") → hashSimilarity a b = 0) ∧
    (∀ d₁ d₂ d₃ d₄ e₁ e₂ e₃ e₄ : ℕ,
      d₁ ≤ 9 → d₂ ≤ 9 → d₃ ≤ 9 → d₄ ≤ 9 → e₁ ≤ 9 → e₂ ≤ 9 → e₃ ≤ 9 → e₄ ≤ 9 →
      (mkPosFP d₁ d₂ d₃ d₄ ≠ mkPosFP e₁ e₂ e₃ e₄ →
        hashSimilarity (mkPosFP d₁ d₂ d₃ d₄) (mkPosFP e₁ e₂ e₃ e₄) =
          6/10 * ((specDigitScore d₁ e₁ + specDigitScore d₂ e₂ + specDigitScore d₃ e₃ +
            specDigitScore d₄ e₄) / 4) + 4/10 * (1/2)) ∧
      (∀ ca cb : String, ca.length = 6 → cb.length = 6 →
        '|' ∉ ca.data → '|' ∉ cb.data →
        mkColorFP d₁ d₂ d₃ d₄ ca ≠ mkColorFP e₁ e₂ e₃ e₄ cb →
        hashSimilarity (mkColorFP d₁ d₂ d₃ d₄ ca) (mkColorFP e₁ e₂ e₃ e₄ cb) =
          6/10 * ((specDigitScore d₁ e₁ + specDigitScore d₂ e₂ + specDigitScore d₃ e₃ +
            specDigitScore d₄ e₄) / 4) + 4/10 * specColorScore ca cb) ∧
      (∀ ca : String, '|' ∉ ca.data →
        hashSimilarity (mkColorFP d₁ d₂ d₃ d₄ ca) (mkPosFP e₁ e₂ e₃ e₄) =
          6/10 * ((specDigitScore d₁ e₁ + specDigitScore d₂ e₂ + specDigitScore d₃ e₃ +
            specDigitScore d₄ e₄) / 4) + 4/10 * (1/2)) ∧
      (∀ cb : String, '|' ∉ cb.data →
        hashSimilarity (mkPosFP d₁ d₂ d₃ d₄) (mkColorFP e₁ e₂ e₃ e₄ cb) =
          6/10 * ((specDigitScore d₁ e₁ + specDigitScore d₂ e₂ + specDigitScore d₃ e₃ +
            specDigitScore d₄ e₄) / 4) + 4/10 * (1/2))) ∧
    (∀ a b : String, a ≠ b → ¬(a = "" ∨ b = "") →
      ¬(jsStartsWith a "POS:" = true ∧ jsStartsWith b "POS:" = true) →
      hashSimilarity a b = specMatchFraction a b) := by
  refine ⟨hashSimilarity_eq_of_eq, hashSimilarity_of_empty, ?_, hashSimilarity_fallback⟩
  intro d₁ d₂ d₃ d₄ e₁ e₂ e₃ e₄ hd₁ hd₂ hd₃ hd₄ he₁ he₂ he₃ he₄
  refine ⟨hashSimilarity_mkPosFP d₁ d₂ d₃ d₄ e₁ e₂ e₃ e₄ hd₁ hd₂ hd₃ hd₄ he₁ he₂ he₃ he₄,
    ?_, ?_, ?_⟩
  · intro ca cb hca hcb hpa hpb hne
    exact hashSimilarity_mkColorFP d₁ d₂ d₃ d₄ e₁ e₂ e₃ e₄ ca cb hd₁ hd₂ hd₃ hd₄ he₁ he₂
      he₃ he₄ hca hcb (fun c hc he => hpa (he ▸ hc)) (fun c hc he => hpb (he ▸ hc)) hne
  · intro ca hpa
    exact hashSimilarity_color_pos d₁ d₂ d₃ d₄ e₁ e₂ e₃ e₄ ca hd₁ hd₂ hd₃ hd₄ he₁ he₂ he₃
      he₄ (fun c hc he => hpa (he ▸ hc))
  · intro cb hpb
    exact hashSimilarity_pos_color d₁ d₂ d₃ d₄ e₁ e₂ e₃ e₄ cb hd₁ hd₂ hd₃ hd₄ he₁ he₂ he₃
      he₄ (fun c hc he => hpb (he ▸ hc))

/-- C6 (witness). -/
theorem c6_hashSimilarity_spec_witness :
    mkColorFP 1 2 3 4 "aabbcc" ≠ mkColorFP 1 2 3 5 "aabbcc" ∧
    (hashSimilarity (mkColorFP 1 2 3 4 "aabbcc") (mkColorFP 1 2 3 5 "aabbcc") =
      6/10 * ((specDigitScore 1 1 + specDigitScore 2 2 + specDigitScore 3 3 +
        specDigitScore 4 5) / 4) + 4/10 * specColorScore "aabbcc" "aabbcc") ∧
    (hashSimilarity (mkColorFP 1 2 3 4 "aabbcc") (mkPosFP 1 2 3 5) =
      6/10 * ((specDigitScore 1 1 + specDigitScore 2 2 + specDigitScore 3 3 +
        specDigitScore 4 5) / 4) + 4/10 * (1/2)) :=
  ⟨by decide,
   (c6_hashSimilarity_spec.2.2.1 1 2 3 4 1 2 3 5 (by decide) (by decide) (by decide)
      (by decide) (by decide) (by decide) (by decide) (by decide)).2.1 "aabbcc" "aabbcc"
      (by decide) (by decide) (by decide) (by decide) (by decide),
   (c6_hashSimilarity_spec.2.2.1 1 2 3 4 1 2 3 5 (by decide) (by decide) (by decide)
      (by decide) (by decide) (by decide) (by decide) (by decide)).2.2.1 "aabbcc"
      (by decide)⟩

/-! ## C4 — AD output safety -/

theorem noProhibited_of_check (s : String)
    (h : PROHIBITED_TERMS.all (fun t => !jsIncludes (jsToLower s) (jsToLower t)) = true) :
    NoProhibitedTerms s := by
  intro t ht
  have := List.all_eq_true.mp h t ht
  simpa using this

theorem getPositionDescription_mem (vid : VID) (state : VisualState) :
    getPositionDescription vid state ∈
      ["unknown position", "top left", "top center", "top right", "middle left",
       "middle center", "middle right", "bottom left", "bottom center", "bottom right"] := by
  unfold getPositionDescription
  cases alGet state.vids vid with
  | none => decide
  | some vs =>
    simp only
    rw [jsIndexD_three, jsIndexD_three]
    split_ifs <;> decide

theorem validate_ok_clean (out : String) (maxLength : ℕ)
    (h : (validateLLMOutput out maxLength).1 = true) : NoProhibitedTerms out := by
  unfold validateLLMOutput at h
  split at h
  · simp at h
  · intro t ht
    cases hfind : PROHIBITED_TERMS.find?
        (fun term => jsIncludes (jsToLower out) (jsToLower term)) with
    | some t2 => rw [hfind] at h; simp at h
    | none =>
      have := List.find?_eq_none.mp hfind t ht
      exact eq_false_of_ne_true this

theorem hand_raised_template_clean (pos : String)
    (hpos : pos ∈ ["unknown position", "top left", "top center", "top right", "middle left",
      "middle center", "middle right", "bottom left", "bottom center", "bottom right"]) :
    NoProhibitedTerms (jsReplace "Participant ${position} raised their hand" "${position}" pos) := by
  simp only [List.mem_cons, List.not_mem_nil, or_false] at hpos
  rcases hpos with h | h | h | h | h | h | h | h | h | h <;>
    (subst h; exact noProhibited_of_check _ (by decide))

theorem hand_lowered_template_clean (pos : String)
    (hpos : pos ∈ ["unknown position", "top left", "top center", "top right", "middle left",
      "middle center", "middle right", "bottom left", "bottom center", "bottom right"]) :
    NoProhibitedTerms (jsReplace "Participant ${position} lowered their hand" "${position}" pos) := by
  simp only [List.mem_cons, List.not_mem_nil, or_false] at hpos
  rcases hpos with h | h | h | h | h | h | h | h | h | h <;>
    (subst h; exact noProhibited_of_check _ (by decide))

theorem templateVerbalize_clean (event : VisualEvent) (state : VisualState)
    (verbosity : Verbosity) : NoProhibitedTerms (templateVerbalize event state verbosity) := by
  cases event with
  | snapshot_received ts ch w hh rc =>
    cases verbosity <;> exact noProhibited_of_check _ rfl
  | audio_video_link ts sid v conf =>
    cases verbosity <;> exact noProhibited_of_check _ rfl
  | vid_appeared ts v kind bbox conf =>
    cases verbosity <;> exact noProhibited_of_check _ rfl
  | vid_disappeared ts v conf =>
    cases verbosity <;> exact noProhibited_of_check _ rfl
  | screen_share_started ts v conf =>
    cases verbosity <;> exact noProhibited_of_check _ rfl
  | screen_share_stopped ts v conf =>
    cases verbosity <;> exact noProhibited_of_check _ rfl
  | slide_changed ts v toHash fromHash conf =>
    cases verbosity <;> exact noProhibited_of_check _ rfl
  | layout_changed ts fromL toL conf =>
    cases verbosity <;> cases toL <;> exact noProhibited_of_check _ rfl
  | hand_raised ts v conf =>
    cases verbosity with
    | minimal => exact noProhibited_of_check _ rfl
    | normal =>
      simp only [templateVerbalize, eventTemplates]
      exact hand_raised_template_clean _ (getPositionDescription_mem v state)
  | hand_lowered ts v conf =>
    cases verbosity with
    | minimal => exact noProhibited_of_check _ rfl
    | normal =>
      simp only [templateVerbalize, eventTemplates]
      exact hand_lowered_template_clean _ (getPositionDescription_mem v state)

/-- C4: whatever the LLM handler does, the text returned by
`Verbalizer.verbalize` never contains a prohibited term as a
case-insensitive substring (accepted LLM outputs are exactly those passing
`validateLLMOutput`, whose acceptance implies cleanliness, and every
template-path output is clean); and a handler error or a validation
failure yields exactly the deterministic template text. -/
theorem c4_verbalize_safe (config : VerbalizerConfig)
    (handler : Option (LLMVerbalizerContext → Except String String))
    (ae : AllowedADEvent) (state : VisualState) :
    NoProhibitedTerms (verbalize config handler ae state) ∧
    (∀ h, handler = some h → config.useLLM = true →
      (∀ err, h (buildLLMContext ae.event state config.verbosity) = Except.error err →
        verbalize config handler ae state = templateVerbalize ae.event state config.verbosity) ∧
      (∀ out, h (buildLLMContext ae.event state config.verbosity) = Except.ok out →
        (validateLLMOutput out config.maxLength).1 = false →
        verbalize config handler ae state =
          templateVerbalize ae.event state config.verbosity)) := by
  constructor
  · unfold verbalize
    by_cases hu : config.useLLM = true
    · rw [if_pos hu]
      cases handler with
      | none => exact templateVerbalize_clean ae.event state config.verbosity
      | some h =>
        show NoProhibitedTerms
          (match h (buildLLMContext ae.event state config.verbosity) with
           | Except.ok llmOutput =>
             if (validateLLMOutput llmOutput config.maxLength).1 = true then llmOutput
             else templateVerbalize ae.event state config.verbosity
           | Except.error _ => templateVerbalize ae.event state config.verbosity)
        cases h (buildLLMContext ae.event state config.verbosity) with
        | error e => exact templateVerbalize_clean ae.event state config.verbosity
        | ok out =>
          by_cases hv : (validateLLMOutput out config.maxLength).1 = true
          · show NoProhibitedTerms
              (if (validateLLMOutput out config.maxLength).1 = true then out
               else templateVerbalize ae.event state config.verbosity)
            rw [if_pos hv]
            exact validate_ok_clean out config.maxLength hv
          · show NoProhibitedTerms
              (if (validateLLMOutput out config.maxLength).1 = true then out
               else templateVerbalize ae.event state config.verbosity)
            rw [if_neg hv]
            exact templateVerbalize_clean ae.event state config.verbosity
    · rw [if_neg hu]
      exact templateVerbalize_clean ae.event state config.verbosity
  · intro h hh hu
    subst hh
    constructor
    · intro err herr
      unfold verbalize
      rw [if_pos hu]
      show (match h (buildLLMContext ae.event state config.verbosity) with
            | Except.ok llmOutput =>
              if (validateLLMOutput llmOutput config.maxLength).1 = true then llmOutput
              else templateVerbalize ae.event state config.verbosity
            | Except.error _ => templateVerbalize ae.event state config.verbosity) =
          templateVerbalize ae.event state config.verbosity
      rw [herr]
    · intro out hout hv
      unfold verbalize
      rw [if_pos hu]
      show (match h (buildLLMContext ae.event state config.verbosity) with
            | Except.ok llmOutput =>
              if (validateLLMOutput llmOutput config.maxLength).1 = true then llmOutput
              else templateVerbalize ae.event state config.verbosity
            | Except.error _ => templateVerbalize ae.event state config.verbosity) =
          templateVerbalize ae.event state config.verbosity
      rw [hout]
      exact if_neg (by rw [hv]; exact Bool.false_ne_true)

/-- C4 (witness). -/
theorem c4_verbalize_safe_witness :
    (fun _ : LLMVerbalizerContext => (Except.error "boom" : Except String String))
        (buildLLMContext (VisualEvent.hand_raised 0 1 1) createInitialVisualState
          Verbosity.normal) = Except.error "boom" ∧
    verbalize { useLLM := true, maxLength := 120, verbosity := Verbosity.normal }
        (some (fun _ => Except.error "boom"))
        { event := VisualEvent.hand_raised 0 1 1, priority := 8 }
        createInitialVisualState =
      templateVerbalize (VisualEvent.hand_raised 0 1 1) createInitialVisualState
        Verbosity.normal :=
  ⟨rfl,
   ((c4_verbalize_safe { useLLM := true, maxLength := 120, verbosity := Verbosity.normal }
      (some (fun _ => Except.error "boom"))
      { event := VisualEvent.hand_raised 0 1 1, priority := 8 }
      createInitialVisualState).2 _ rfl rfl).1 "boom" rfl⟩

/-! ## C7 — expiry correctness -/

theorem contains_eq_false_of_not_mem {l : List ℕ} {v : ℕ} (h : v ∉ l) :
    l.contains v = false := by
  cases hc : l.contains v with
  | false => rfl
  | true => exact absurd (List.elem_iff.mp hc) h

/-- C7: after `processRegions` at time `nowMs`, every surviving entry was
either claimed (reused) by a region of this call or has
`lastSeenMs ≥ nowMs − expireMs`; and every expired entry was unclaimed
and, at the time of the expiry sweep, had `lastSeenMs < nowMs − expireMs`. -/
theorem c7_expiry_correct (cfg : VIDConfig) (st : TrackerState)
    (regions : List DetectedRegion) (nowMs : ℚ) :
    (∀ e ∈ (processRegions cfg st regions nowMs).1.entries,
      nowMs - cfg.expireMs ≤ e.lastSeenMs ∨
        e.vid ∈ (matchRegions cfg st regions nowMs).2.usedVids) ∧
    (∀ v ∈ (processRegions cfg st regions nowMs).2.expired,
      v ∉ (matchRegions cfg st regions nowMs).2.usedVids ∧
      ∃ e ∈ (matchRegions cfg st regions nowMs).1.entries,
        e.vid = v ∧ e.lastSeenMs < nowMs - cfg.expireMs) := by
  constructor
  · intro e he
    unfold processRegions at he
    simp only at he
    rw [List.mem_filter] at he
    obtain ⟨he₁, he₂⟩ := he
    by_cases hused : e.vid ∈ (matchRegions cfg st regions nowMs).2.usedVids
    · right; exact hused
    · left
      by_contra hlt
      push_neg at hlt
      have hfilt : e ∈ (matchRegions cfg st regions nowMs).1.entries.filter (fun x =>
          !(matchRegions cfg st regions nowMs).2.usedVids.contains x.vid &&
            decide (x.lastSeenMs < nowMs - cfg.expireMs)) := by
        refine List.mem_filter.mpr ⟨he₁, ?_⟩
        rw [Bool.and_eq_true, decide_eq_true_iff]
        refine ⟨?_, hlt⟩
        rw [contains_eq_false_of_not_mem hused]
        rfl
      have hvmem : e.vid ∈ ((matchRegions cfg st regions nowMs).1.entries.filter (fun x =>
          !(matchRegions cfg st regions nowMs).2.usedVids.contains x.vid &&
            decide (x.lastSeenMs < nowMs - cfg.expireMs))).map (fun x => x.vid) :=
        List.mem_map_of_mem _ hfilt
      have hcont : (((matchRegions cfg st regions nowMs).1.entries.filter (fun x =>
          !(matchRegions cfg st regions nowMs).2.usedVids.contains x.vid &&
            decide (x.lastSeenMs < nowMs - cfg.expireMs))).map (fun x => x.vid)).contains
            e.vid = true :=
        List.elem_iff.mpr hvmem
      rw [hcont] at he₂
      exact Bool.noConfusion he₂
  · intro v hv
    unfold processRegions at hv
    simp only at hv
    rw [List.mem_map] at hv
    obtain ⟨e, he, hev⟩ := hv
    rw [List.mem_filter, Bool.and_eq_true, decide_eq_true_iff] at he
    obtain ⟨he₁, hnc, hlt⟩ := he
    constructor
    · intro hmem
      have hcont : (matchRegions cfg st regions nowMs).2.usedVids.contains e.vid = true :=
        List.elem_iff.mpr (hev ▸ hmem)
      rw [hcont] at hnc
      exact Bool.noConfusion hnc
    · exact ⟨e, he₁, hev, hlt⟩

/-! ## C1 — best-candidate characterization of `findBestMatch` -/

theorem betterOf_ne_none (b : Option VIDMatch) (m : VIDMatch) : betterOf b m ≠ none := by
  cases b with
  | none => simp [betterOf]
  | some x =>
    unfold betterOf
    by_cases h : x.score < m.score <;> simp [h]

theorem findBestMatch_append (cfg : VIDConfig) (region : DetectedRegion)
    (l : List VIDEntry) (e : VIDEntry) :
    findBestMatch cfg (l ++ [e]) region =
      (match candidateMatch cfg region e with
       | none => findBestMatch cfg l region
       | some m => betterOf (findBestMatch cfg l region) m) := by
  unfold findBestMatch
  rw [List.foldl_append]
  rfl

theorem findBestMatch_eq_none_iff (cfg : VIDConfig) (region : DetectedRegion)
    (entries : List VIDEntry) :
    findBestMatch cfg entries region = none ↔
      ∀ e ∈ entries, candidateMatch cfg region e = none := by
  induction entries using List.reverseRecOn with
  | nil => simp [findBestMatch]
  | append_singleton l e ih =>
    rw [findBestMatch_append]
    cases hce : candidateMatch cfg region e with
    | none =>
      simp only
      constructor
      · intro h x hx
        rcases List.mem_append.mp hx with hx | hx
        · exact (ih.mp h) x hx
        · rw [List.mem_singleton.mp hx]; exact hce
      · intro h
        exact ih.mpr (fun x hx => h x (List.mem_append_left _ hx))
    | some m =>
      simp only
      constructor
      · intro h
        exact absurd h (betterOf_ne_none _ m)
      · intro h
        have := h e (List.mem_append_right _ (List.mem_singleton_self e))
        rw [hce] at this
        exact Option.noConfusion this

theorem findBestMatch_best (cfg : VIDConfig) (region : DetectedRegion)
    (entries : List VIDEntry) (m : VIDMatch)
    (h : findBestMatch cfg entries region = some m) :
    IsBestCandidate cfg entries region m := by
  induction entries using List.reverseRecOn generalizing m with
  | nil => exact Option.noConfusion h
  | append_singleton l e ih =>
    rw [findBestMatch_append] at h
    have hlen : ∀ (j : ℕ) (e₂ : VIDEntry), (l ++ [e]).get? j = some e₂ →
        j < l.length → l.get? j = some e₂ := by
      intro j e₂ hget hj
      rwa [List.get?_append hj] at hget
    have hlast : ∀ (j : ℕ) (e₂ : VIDEntry), (l ++ [e]).get? j = some e₂ →
        ¬(j < l.length) → j = l.length ∧ e₂ = e := by
      intro j e₂ hget hj
      push_neg at hj
      have hjlt : j < (l ++ [e]).length := by
        by_contra hc
        push_neg at hc
        rw [List.get?_eq_none.mpr hc] at hget
        exact Option.noConfusion hget
      rw [List.length_append, List.length_singleton] at hjlt
      have hje : j = l.length := by omega
      subst hje
      rw [List.get?_concat_length] at hget
      exact ⟨rfl, (Option.some.injEq _ _ ▸ hget).symm⟩
    cases hce : candidateMatch cfg region e with
    | none =>
      rw [hce] at h
      obtain ⟨i, e', hget, hcand, hstrict, hle⟩ := ih m h
      have hi : i < l.length := by
        by_contra hc
        push_neg at hc
        rw [List.get?_eq_none.mpr hc] at hget
        exact Option.noConfusion hget
      refine ⟨i, e', by rwa [List.get?_append hi], hcand, ?_, ?_⟩
      · intro j e₂ m₂ hj hget₂ hcand₂
        exact hstrict j e₂ m₂ hj (hlen j e₂ hget₂ (lt_trans hj hi)) hcand₂
      · intro j e₂ m₂ hget₂ hcand₂
        by_cases hj : j < l.length
        · exact hle j e₂ m₂ (hlen j e₂ hget₂ hj) hcand₂
        · obtain ⟨hje, he₂⟩ := hlast j e₂ hget₂ hj
          subst he₂
          rw [hce] at hcand₂
          exact Option.noConfusion hcand₂
    | some m' =>
      simp only [hce] at h
      cases hfl : findBestMatch cfg l region with
      | none =>
        simp only [hfl, betterOf] at h
        injection h with hm
        subst hm
        have hnone := (findBestMatch_eq_none_iff cfg region l).mp hfl
        refine ⟨l.length, e, List.get?_concat_length l e, hce, ?_, ?_⟩
        · intro j e₂ m₂ hj hget₂ hcand₂
          rw [hnone e₂ (List.get?_mem (hlen j e₂ hget₂ hj))] at hcand₂
          exact Option.noConfusion hcand₂
        · intro j e₂ m₂ hget₂ hcand₂
          by_cases hj : j < l.length
          · rw [hnone e₂ (List.get?_mem (hlen j e₂ hget₂ hj))] at hcand₂
            exact Option.noConfusion hcand₂
          · obtain ⟨hje, he₂⟩ := hlast j e₂ hget₂ hj
            subst he₂
            rw [hce] at hcand₂
            injection hcand₂ with hm₂
            rw [← hm₂]
      | some b =>
        simp only [hfl, betterOf] at h
        obtain ⟨i, e', hget, hcand, hstrict, hle⟩ := ih b hfl
        have hi : i < l.length := by
          by_contra hc
          push_neg at hc
          rw [List.get?_eq_none.mpr hc] at hget
          exact Option.noConfusion hget
        by_cases hbs : b.score < m'.score
        · rw [if_pos hbs] at h
          injection h with hm
          subst hm
          refine ⟨l.length, e, List.get?_concat_length l e, hce, ?_, ?_⟩
          · intro j e₂ m₂ hj hget₂ hcand₂
            have := hle j e₂ m₂ (hlen j e₂ hget₂ hj) hcand₂
            exact lt_of_le_of_lt this hbs
          · intro j e₂ m₂ hget₂ hcand₂
            by_cases hj : j < l.length
            · exact le_of_lt (lt_of_le_of_lt (hle j e₂ m₂ (hlen j e₂ hget₂ hj) hcand₂) hbs)
            · obtain ⟨hje, he₂⟩ := hlast j e₂ hget₂ hj
              subst he₂
              rw [hce] at hcand₂
              injection hcand₂ with hm₂
              rw [← hm₂]
        · rw [if_neg hbs] at h
          injection h with hm
          subst hm
          refine ⟨i, e', by rwa [List.get?_append hi], hcand, ?_, ?_⟩
          · intro j e₂ m₂ hj hget₂ hcand₂
            exact hstrict j e₂ m₂ hj (hlen j e₂ hget₂ (lt_trans hj hi)) hcand₂
          · intro j e₂ m₂ hget₂ hcand₂
            by_cases hj : j < l.length
            · exact hle j e₂ m₂ (hlen j e₂ hget₂ hj) hcand₂
            · obtain ⟨hje, he₂⟩ := hlast j e₂ hget₂ hj
              subst he₂
              rw [hce] at hcand₂
              injection hcand₂ with hm₂
              rw [← hm₂]
              exact le_of_not_lt hbs

theorem isBestCandidate_unique (cfg : VIDConfig) (region : DetectedRegion)
    (entries : List VIDEntry) (m₁ m₂ : VIDMatch)
    (h₁ : IsBestCandidate cfg entries region m₁)
    (h₂ : IsBestCandidate cfg entries region m₂) : m₁ = m₂ := by
  obtain ⟨i₁, e₁, hg₁, hc₁, hs₁, hl₁⟩ := h₁
  obtain ⟨i₂, e₂, hg₂, hc₂, hs₂, hl₂⟩ := h₂
  rcases lt_trichotomy i₁ i₂ with hlt | heq | hgt
  · have h₁₂ := hs₂ i₁ e₁ m₁ hlt hg₁ hc₁
    have h₂₁ := hl₁ i₂ e₂ m₂ hg₂ hc₂
    exact absurd h₁₂ (not_lt_of_le h₂₁)
  · subst heq
    rw [hg₁] at hg₂
    injection hg₂ with he
    subst he
    rw [hc₁] at hc₂
    injection hc₂
  · have h₂₁ := hs₁ i₂ e₂ m₂ hgt hg₂ hc₂
    have h₁₂ := hl₂ i₁ e₁ m₁ hg₁ hc₁
    exact absurd h₂₁ (not_lt_of_le h₁₂)

theorem findBestMatch_of_isBest (cfg : VIDConfig) (region : DetectedRegion)
    (entries : List VIDEntry) (m : VIDMatch)
    (h : IsBestCandidate cfg entries region m) :
    findBestMatch cfg entries region = some m := by
  cases hf : findBestMatch cfg entries region with
  | none =>
    obtain ⟨i, e, hget, hcand, _, _⟩ := h
    have := (findBestMatch_eq_none_iff cfg region entries).mp hf e (List.get?_mem hget)
    rw [this] at hcand
    exact Option.noConfusion hcand
  | some m' =>
    rw [isBestCandidate_unique cfg region entries m m' h (findBestMatch_best cfg region entries m' hf)]

theorem isBestCandidate_singleton (cfg : VIDConfig) (region : DetectedRegion) (e : VIDEntry)
    (m : VIDMatch) (h : candidateMatch cfg region e = some m) :
    IsBestCandidate cfg [e] region m := by
  refine ⟨0, e, rfl, h, ?_, ?_⟩
  · intro j e₂ m₂ hj _ _
    omega
  · intro j e₂ m₂ hget hcand
    cases j with
    | zero =>
      injection hget with he
      subst he
      rw [h] at hcand
      injection hcand with hm
      rw [hm]
    | succ n => exact Option.noConfusion hget

/-- C1 (amended): for each region, `findBestMatch` selects the
maximum-score non-rejected candidate over **all** live entries of equal
kind — claimed or not — with ties broken by iteration order; the region
reuses that candidate's vid only when it is still unclaimed, and a new
vid is minted either when no entry passes both thresholds or when the
single best candidate's vid was already claimed earlier in the call (the
loop does **not** fall back to the best unclaimed candidate, which is
what the counterexample exhibits). -/
theorem c1_matching (cfg : VIDConfig) (nowMs : ℚ) (st : TrackerState) (acc : ProcessAcc)
    (region : DetectedRegion) :
    (∀ m, IsBestCandidate cfg st.entries region m →
      (m.vid ∉ acc.usedVids →
        trackStep cfg nowMs (st, acc) region =
          ({ st with entries := updateEntry st.entries m.vid region nowMs m.score },
           { acc with assignments := acc.assignments ++ [(region, m.vid)],
                      updated := acc.updated ++ [m.vid],
                      usedVids := acc.usedVids ++ [m.vid] })) ∧
      (m.vid ∈ acc.usedVids →
        trackStep cfg nowMs (st, acc) region = mintRegion st acc region nowMs)) ∧
    ((∀ e ∈ st.entries, candidateMatch cfg region e = none) →
      trackStep cfg nowMs (st, acc) region = mintRegion st acc region nowMs) := by
  constructor
  · intro m hbest
    have hf := findBestMatch_of_isBest cfg region st.entries m hbest
    constructor
    · intro hnotused
      unfold trackStep
      simp only [hf, contains_eq_false_of_not_mem hnotused]
      rfl
    · intro hused
      have hc : acc.usedVids.contains m.vid = true := List.elem_iff.mpr hused
      unfold trackStep
      simp only [hf, hc]
      rfl
  · intro hnone
    unfold trackStep
    simp only [(findBestMatch_eq_none_iff cfg region st.entries).mpr hnone]

/-- C1 (witness). -/
theorem c1_matching_witness :
    trackStep DEFAULT_VID_CONFIG 0
      ({ nextVidNum := 6,
         entries := [{ vid := 5, bbox := { x := 4/10, y := 4/10, w := 2/10, h := 2/10 },
                       kind := RegionKind.tile, fingerprint := "A", lastSeenMs := 0,
                       confidence := 1 }] }, emptyAcc)
      (tileRegion (4/10) "A" {}) =
      ({ nextVidNum := 6,
         entries := updateEntry
           [{ vid := 5, bbox := { x := 4/10, y := 4/10, w := 2/10, h := 2/10 },
              kind := RegionKind.tile, fingerprint := "A", lastSeenMs := 0,
              confidence := 1 }] 5 (tileRegion (4/10) "A" {}) 0 1 },
       { emptyAcc with
          assignments := emptyAcc.assignments ++ [(tileRegion (4/10) "A" {}, 5)],
          updated := emptyAcc.updated ++ [5],
          usedVids := emptyAcc.usedVids ++ [5] }) := by
  have hs0 : mathSqrt 0 = 0 := by
    have h := mathSqrt_sq 0 le_rfl
    rw [mul_zero] at h
    exact h
  have hbd : bboxDistance ({ x := 4/10, y := 4/10, w := 2/10, h := 2/10 } : BBox)
      (tileRegion (4/10) "A" {}).bbox = 0 := by
    unfold bboxDistance tileRegion
    norm_num
    exact hs0
  have hcand : candidateMatch DEFAULT_VID_CONFIG (tileRegion (4/10) "A" {})
      { vid := 5, bbox := { x := 4/10, y := 4/10, w := 2/10, h := 2/10 },
        kind := RegionKind.tile, fingerprint := "A", lastSeenMs := 0, confidence := 1 } =
      some { vid := 5, score := 1, bboxDistance := 0, fingerprintSimilarity := 1 } := by
    unfold candidateMatch
    rw [if_neg (by decide)]
    simp only
    rw [hbd]
    rw [show fingerprintSimilarity "A" (tileRegion (4/10) "A" {}).fingerprint = 1 from by
      unfold fingerprintSimilarity tileRegion
      rw [if_pos rfl]]
    rw [if_neg (by norm_num [DEFAULT_VID_CONFIG]), if_neg (by norm_num [DEFAULT_VID_CONFIG])]
    simp only [Option.some.injEq, VIDMatch.mk.injEq]
    norm_num [DEFAULT_VID_CONFIG]
  have h := ((c1_matching DEFAULT_VID_CONFIG 0
      { nextVidNum := 6,
        entries := [{ vid := 5, bbox := { x := 4/10, y := 4/10, w := 2/10, h := 2/10 },
                      kind := RegionKind.tile, fingerprint := "A", lastSeenMs := 0,
                      confidence := 1 }] } emptyAcc (tileRegion (4/10) "A" {})).1
    { vid := 5, score := 1, bboxDistance := 0, fingerprintSimilarity := 1 }
    (isBestCandidate_singleton _ _ _ _ hcand)).1 (by simp [emptyAcc])
  exact h
